import Mathlib

/-!
Verification development for the CalAgentCodeChallenge repository: a shallow
embedding of `timezone_utils.py`, `cal_api.py` and `chatbot.py` together with
theorems settling the frozen claims about the natural-language specification.

Python's `datetime.date` / `datetime.datetime` values are modelled by the
`Date` and `DT` structures below; timezone objects (`zoneinfo.ZoneInfo`) by the
`Zone` structure (a pair of UTC-offset functions, in minutes, one keyed by
local wall-clock time and one keyed by the UTC instant, as in Python's
`tzinfo.utcoffset` / `tzinfo.fromutc`); exceptions by the `PyExc` structure and
`Except PyExc` results.  External I/O (the HTTP provider, the LLM, the clock,
the zone database, `json.loads`, the profile-extraction regexes) enters as
explicit function parameters.
-/

set_option maxHeartbeats 1000000

namespace CalAgent

/-- JSON-compatible values, modelling the Python objects handled by
`json.loads` / `json.dumps` in `chatbot.py` (floats do not occur in this
program's tool traffic and are omitted). -/
inductive JValue where
  | null
  | bool (b : Bool)
  | int (n : Int)
  | str (s : String)
  | arr (xs : List JValue)
  | obj (fields : List (String × JValue))

/-- Minimal JSON string escaping used by `json.dumps` (backslash and quote). -/
def jsonEscape (s : String) : String :=
  String.join (s.toList.map fun c =>
    if c = '\\' then "\\\\" else if c = '\"' then "\\\"" else String.singleton c)

def jstr (s : String) : String := "\"" ++ jsonEscape s ++ "\""

mutual
/-- Models `json.dumps` with its default separators. -/
def JValue.dumps : JValue → String
  | .null => "null"
  | .bool true => "true"
  | .bool false => "false"
  | .int n => toString n
  | .str s => jstr s
  | .arr xs => "[" ++ JValue.dumpsList xs ++ "]"
  | .obj fs => "\x7b" ++ JValue.dumpsFields fs ++ "\x7d"

def JValue.dumpsList : List JValue → String
  | [] => ""
  | [x] => x.dumps
  | x :: xs => x.dumps ++ ", " ++ JValue.dumpsList xs

def JValue.dumpsFields : List (String × JValue) → String
  | [] => ""
  | [(k, v)] => jstr k ++ ": " ++ v.dumps
  | (k, v) :: fs => jstr k ++ ": " ++ v.dumps ++ ", " ++ JValue.dumpsFields fs
end

/-! ## Calendar core: Python `datetime.date` -/

/-- Python's `calendar` leap-year rule used by `datetime.date`. -/
def isLeap (y : Int) : Bool := y % 4 = 0 && (y % 100 ≠ 0 || y % 400 = 0)

def daysInMonth (y : Int) (m : Nat) : Nat :=
  if m = 2 then (if isLeap y then 29 else 28)
  else if m = 4 ∨ m = 6 ∨ m = 9 ∨ m = 11 then 30
  else 31

/-- A Gregorian calendar date, modelling `datetime.date` (whose valid years
are 1..9999). -/
structure Date where
  year : Int
  month : Nat
  day : Nat
  deriving DecidableEq, Repr

def Date.Valid (d : Date) : Prop :=
  1 ≤ d.month ∧ d.month ≤ 12 ∧ 1 ≤ d.day ∧ d.day ≤ daysInMonth d.year d.month

instance (d : Date) : Decidable d.Valid := by unfold Date.Valid; infer_instance

/-- The calendar successor of a date (`date + timedelta(days=1)`). -/
def Date.nextDay (d : Date) : Date :=
  if d.day < daysInMonth d.year d.month then ⟨d.year, d.month, d.day + 1⟩
  else if d.month < 12 then ⟨d.year, d.month + 1, 1⟩
  else ⟨d.year + 1, 1, 1⟩

/-- The calendar predecessor of a date (`date - timedelta(days=1)`). -/
def Date.prevDay (d : Date) : Date :=
  if 1 < d.day then ⟨d.year, d.month, d.day - 1⟩
  else if 1 < d.month then ⟨d.year, d.month - 1, daysInMonth d.year (d.month - 1)⟩
  else ⟨d.year - 1, 12, 31⟩

theorem daysInMonth_bounds (y : Int) (m : Nat) :
    28 ≤ daysInMonth y m ∧ daysInMonth y m ≤ 31 := by
  unfold daysInMonth
  split
  · split <;> omega
  · split <;> omega

theorem daysInMonth_twelve (y : Int) : daysInMonth y 12 = 31 := by
  simp [daysInMonth]

theorem Date.nextDay_valid (d : Date) (h : d.Valid) : d.nextDay.Valid := by
  obtain ⟨y, m, dd⟩ := d
  obtain ⟨h1, h2, h3, h4⟩ := h
  dsimp only at h1 h2 h3 h4
  unfold Date.nextDay
  dsimp only
  split
  · refine ⟨?_, ?_, ?_, ?_⟩ <;> dsimp only <;> omega
  · split
    · have := daysInMonth_bounds y (m + 1)
      refine ⟨?_, ?_, ?_, ?_⟩ <;> dsimp only <;> omega
    · have := daysInMonth_bounds (y + 1) 1
      refine ⟨?_, ?_, ?_, ?_⟩ <;> dsimp only <;> omega

theorem Date.prevDay_valid (d : Date) (h : d.Valid) : d.prevDay.Valid := by
  obtain ⟨y, m, dd⟩ := d
  obtain ⟨h1, h2, h3, h4⟩ := h
  dsimp only at h1 h2 h3 h4
  unfold Date.prevDay
  dsimp only
  split
  · refine ⟨?_, ?_, ?_, ?_⟩ <;> dsimp only <;> omega
  · split
    · have := daysInMonth_bounds y (m - 1)
      refine ⟨?_, ?_, ?_, ?_⟩ <;> dsimp only <;> omega
    · have := daysInMonth_twelve (y - 1)
      refine ⟨?_, ?_, ?_, ?_⟩ <;> dsimp only <;> omega

theorem Date.prevDay_nextDay (d : Date) (h : d.Valid) : d.nextDay.prevDay = d := by
  obtain ⟨y, m, dd⟩ := d
  obtain ⟨h1, h2, h3, h4⟩ := h
  dsimp only at h1 h2 h3 h4
  unfold Date.nextDay
  dsimp only
  split
  · unfold Date.prevDay
    dsimp only
    rw [if_pos (by omega)]
    simp
  · split
    · unfold Date.prevDay
      dsimp only
      rw [if_neg (by omega), if_pos (by omega)]
      simp only [Nat.add_sub_cancel]
      have hdim : daysInMonth y m = dd := by omega
      rw [hdim]
    · unfold Date.prevDay
      dsimp only
      rw [if_neg (by omega), if_neg (by omega)]
      have hm : m = 12 := by omega
      subst hm
      rw [daysInMonth_twelve] at h4
      rename_i hlt _
      rw [daysInMonth_twelve] at hlt
      have h31 : dd = 31 := by omega
      have hy : y + 1 - 1 = y := by ring
      rw [hy, h31]

theorem Date.nextDay_prevDay (d : Date) (h : d.Valid) : d.prevDay.nextDay = d := by
  obtain ⟨y, m, dd⟩ := d
  obtain ⟨h1, h2, h3, h4⟩ := h
  dsimp only at h1 h2 h3 h4
  unfold Date.prevDay
  dsimp only
  split
  · unfold Date.nextDay
    dsimp only
    rw [if_pos (by omega)]
    have hdd : dd - 1 + 1 = dd := by omega
    rw [hdd]
  · split
    · unfold Date.nextDay
      dsimp only
      rw [if_neg (by omega), if_pos (by omega)]
      have hm : m - 1 + 1 = m := by omega
      rw [hm]
      have hdd : dd = 1 := by omega
      rw [hdd]
    · have hm : m = 1 := by omega
      have hdd : dd = 1 := by omega
      subst hm; subst hdd
      unfold Date.nextDay
      dsimp only
      rw [if_neg (by rw [daysInMonth_twelve]; omega), if_neg (by omega)]
      have hy : y - 1 + 1 = y := by ring
      rw [hy]

/-- `d` shifted forward by `n` calendar days. -/
def Date.shiftF : Date → Nat → Date
  | d, 0 => d
  | d, n + 1 => (d.shiftF n).nextDay

/-- `d` shifted backward by `n` calendar days. -/
def Date.shiftB : Date → Nat → Date
  | d, 0 => d
  | d, n + 1 => d.prevDay.shiftB n

theorem Date.shiftF_valid (d : Date) (h : d.Valid) : ∀ n, (d.shiftF n).Valid := by
  intro n
  induction n with
  | zero => exact h
  | succ k ih => exact (d.shiftF k).nextDay_valid ih

theorem Date.shiftB_valid (d : Date) (h : d.Valid) : ∀ n, (d.shiftB n).Valid := by
  intro n
  induction n generalizing d with
  | zero => exact h
  | succ k ih => exact ih d.prevDay (d.prevDay_valid h)

theorem Date.shiftB_shiftF (d : Date) (h : d.Valid) : ∀ n, (d.shiftF n).shiftB n = d := by
  intro n
  induction n with
  | zero => rfl
  | succ k ih =>
      show ((d.shiftF k).nextDay.prevDay).shiftB k = d
      rw [Date.prevDay_nextDay _ (d.shiftF_valid h k)]
      exact ih

theorem Date.shiftF_shiftB (d : Date) (h : d.Valid) : ∀ n, (d.shiftB n).shiftF n = d := by
  intro n
  induction n generalizing d with
  | zero => rfl
  | succ k ih =>
      show ((d.prevDay.shiftB k).shiftF k).nextDay = d
      rw [ih d.prevDay (d.prevDay_valid h)]
      exact d.nextDay_prevDay h

/-- `d` shifted by `k` calendar days (`date + timedelta(days=k)`). -/
def Date.shift (d : Date) (k : Int) : Date :=
  if 0 ≤ k then d.shiftF k.toNat else d.shiftB (-k).toNat

theorem Date.shift_valid (d : Date) (h : d.Valid) (k : Int) : (d.shift k).Valid := by
  unfold Date.shift
  split
  · exact d.shiftF_valid h _
  · exact d.shiftB_valid h _

theorem Date.shift_cancel (d : Date) (h : d.Valid) (k : Int) : (d.shift k).shift (-k) = d := by
  unfold Date.shift
  by_cases hk : 0 ≤ k
  · rw [if_pos hk]
    by_cases hz : k = 0
    · subst hz; simp [Date.shiftF, Date.shiftB]
    · rw [if_neg (by omega)]
      rw [show (- -k).toNat = k.toNat by omega]
      exact d.shiftB_shiftF h _
  · rw [if_neg hk, if_pos (by omega)]
    exact d.shiftF_shiftB h _

/-- Lexicographic date comparison, as on Python `datetime.date`:
`a <= b`. -/
def Date.leb (a b : Date) : Bool :=
  if a.year ≠ b.year then decide (a.year < b.year)
  else if a.month ≠ b.month then decide (a.month < b.month)
  else decide (a.day ≤ b.day)

/-- Strict date comparison `a < b`. -/
def Date.ltb (a b : Date) : Bool := !(b.leb a)

theorem Date.leb_refl (d : Date) : d.leb d = true := by
  simp [Date.leb]

/-! ## Python `datetime.datetime` at minute granularity

Every datetime this program formats or parses is rendered at `%H:%M` or
`%H:%M:%S` with seconds that are zero (slot instants and conversions carry
whole minutes; zone offsets are modelled as whole minutes).  Seconds and
fractions are therefore validated when parsing but not stored. -/

structure DT where
  date : Date
  minute : Nat
  deriving DecidableEq, Repr

def DT.Valid (t : DT) : Prop := t.date.Valid ∧ t.minute < 1440

instance (t : DT) : Decidable t.Valid := by unfold DT.Valid; infer_instance

/-- Python's `datetime` range check: years 1..9999 (`datetime.min` to
`datetime.max`); arithmetic leaving this range raises `OverflowError`. -/
def DT.InRange (t : DT) : Prop := 1 ≤ t.date.year ∧ t.date.year ≤ 9999

instance (t : DT) : Decidable t.InRange := by unfold DT.InRange; infer_instance

/-- `t + timedelta(minutes=k)` (without Python's range check, which callers
model explicitly where the source can raise). -/
def DT.addMinutes (t : DT) (k : Int) : DT :=
  ⟨t.date.shift (((t.minute : Int) + k) / 1440), ((((t.minute : Int) + k) % 1440)).toNat⟩

theorem DT.addMinutes_valid (t : DT) (h : t.Valid) (k : Int) : (t.addMinutes k).Valid := by
  obtain ⟨hd, hm⟩ := h
  exact ⟨t.date.shift_valid hd _, by unfold DT.addMinutes; dsimp only; omega⟩

theorem DT.addMinutes_cancel (t : DT) (h : t.Valid) (k : Int) :
    (t.addMinutes k).addMinutes (-k) = t := by
  obtain ⟨d, m⟩ := t
  obtain ⟨hd, hm⟩ := h
  dsimp only at hm
  unfold DT.addMinutes
  dsimp only
  simp only [DT.mk.injEq]
  constructor
  · have hq : ((((((m : Int) + k) % 1440).toNat : Int) + -k)) / 1440
        = -(((m : Int) + k) / 1440) := by omega
    rw [hq]
    exact d.shift_cancel hd _
  · omega

theorem DT.addMinutes_zero (t : DT) (h : t.Valid) : t.addMinutes 0 = t := by
  obtain ⟨d, m⟩ := t
  obtain ⟨hd, hm⟩ := h
  dsimp only at hm
  unfold DT.addMinutes
  dsimp only
  simp only [DT.mk.injEq]
  constructor
  · have hq : (((m : Int) + 0)) / 1440 = 0 := by omega
    rw [hq]
    simp [Date.shift, Date.shiftF]
  · omega

/-! ## Decimal formatting and parsing (`strftime` / `strptime` / `fromisoformat`) -/

def digitChar (n : Nat) : Char := Char.ofNat (48 + n % 10)

def digitVal (c : Char) : Option Nat :=
  if 48 ≤ c.toNat ∧ c.toNat ≤ 57 then some (c.toNat - 48) else none

/-- Two zero-padded decimal digits (`%02d`). -/
def pad2L (n : Nat) : List Char := [digitChar (n / 10), digitChar n]

/-- Four zero-padded decimal digits (`%04d`, as in `%Y` for years 1..9999). -/
def pad4L (n : Nat) : List Char := [digitChar (n / 1000), digitChar (n / 100), digitChar (n / 10), digitChar n]

def pad2 (n : Nat) : String := ⟨pad2L n⟩

def pad4 (n : Nat) : String := ⟨pad4L n⟩

def twoDigit (a b : Char) : Option Nat := do
  let x ← digitVal a
  let y ← digitVal b
  pure (10 * x + y)

def fourDigit (a b c d : Char) : Option Nat := do
  let x ← digitVal a
  let y ← digitVal b
  let z ← digitVal c
  let w ← digitVal d
  pure (1000 * x + 100 * y + 10 * z + w)

/-- `date.isoformat()` / `strftime("%Y-%m-%d")`. -/
def Date.isoformatL (d : Date) : List Char :=
  pad4L d.year.toNat ++ '-' :: pad2L d.month ++ '-' :: pad2L d.day

def Date.isoformat (d : Date) : String := ⟨d.isoformatL⟩

/-- `strftime("%H:%M")` of a minute-of-day value. -/
def formatHML (m : Nat) : List Char := pad2L (m / 60) ++ ':' :: pad2L (m % 60)

def formatHM (m : Nat) : String := ⟨formatHML m⟩

/-- `strftime("%Y-%m-%dT%H:%M:%SZ")`; the seconds of every datetime this
program formats are zero (minute granularity, see `DT`). -/
def formatIsoZL (t : DT) : List Char :=
  t.date.isoformatL ++ 'T' :: formatHML t.minute ++ [':', '0', '0', 'Z']

def formatIsoZ (t : DT) : String := ⟨formatIsoZL t⟩

/-- `datetime.date.fromisoformat`: strict zero-padded `YYYY-MM-DD`; a
component out of range (including year 0) raises `ValueError`, modelled as
`none`. -/
def dateFromIsoL : List Char → Option Date
  | [a, b, c, d, '-', e, f, '-', g, h] => do
    let y ← fourDigit a b c d
    let m ← twoDigit e f
    let dd ← twoDigit g h
    if 1 ≤ y ∧ 1 ≤ m ∧ m ≤ 12 ∧ 1 ≤ dd ∧ dd ≤ daysInMonth y m then
      pure ⟨y, m, dd⟩
    else none
  | _ => none

def Date.fromIso (s : String) : Option Date := dateFromIsoL s.data

/-- Split a character list at each occurrence of `c` (as `str.split(c)`). -/
def splitChar (c : Char) : List Char → List (List Char)
  | [] => [[]]
  | x :: xs =>
    let r := splitChar c xs
    if x = c then [] :: r
    else
      match r with
      | [] => [[x]]
      | hd :: tl => (x :: hd) :: tl

/-- A one- or two-digit numeric field, as accepted by `strptime` for
`%m`, `%d`, `%H` and `%M`. -/
def fld12 : List Char → Option Nat
  | [a] => digitVal a
  | [a, b] => twoDigit a b
  | _ => none

/-- The `%Y` field of `strptime`: exactly four digits. -/
def fldY : List Char → Option Nat
  | [a, b, c, d] => fourDigit a b c d
  | _ => none

/-- `datetime.strptime(f"{date} {time}", "%Y-%m-%d %H:%M")`: the year takes
exactly four digits, the other fields one or two; an invalid calendar date or
clock time raises `ValueError` inside `strptime`, modelled as `none`. -/
def strptimeDT (ds ts : String) : Option DT :=
  match splitChar '-' ds.data, splitChar ':' ts.data with
  | [ys, ms, dss], [hs, ns] =>
    match fldY ys, fld12 ms, fld12 dss, fld12 hs, fld12 ns with
    | some y, some m, some dd, some hh, some mm =>
      if 1 ≤ y ∧ 1 ≤ m ∧ m ≤ 12 ∧ 1 ≤ dd ∧ dd ≤ daysInMonth (y : Int) m ∧ hh ≤ 23 ∧ mm ≤ 59 then
        some ⟨⟨y, m, dd⟩, hh * 60 + mm⟩
      else none
    | _, _, _, _, _ => none
  | _, _ => none

/-- Scan for the first `+` or `-` (the UTC-offset sign inside the time part of
an ISO datetime; the date's hyphens are consumed before this runs). -/
def splitAtSign : List Char → List Char × Option (Int × List Char)
  | [] => ([], none)
  | c :: rest =>
    if c = '+' then ([], some (1, rest))
    else if c = '-' then ([], some (-1, rest))
    else
      let (t, o) := splitAtSign rest
      (c :: t, o)

/-- The `±HH:MM` UTC-offset suffix of `datetime.fromisoformat`, in minutes. -/
def offsetFromChars (sign : Int) : List Char → Option Int
  | [a, b, ':', c, d] => do
    let h ← twoDigit a b
    let m ← twoDigit c d
    if h ≤ 23 ∧ m ≤ 59 then pure (sign * ((h : Int) * 60 + m)) else none
  | _ => none

/-- One to six fractional-second digits. -/
def fracDigits (l : List Char) : Bool :=
  !l.isEmpty && l.length ≤ 6 && l.all fun c => (digitVal c).isSome

/-- The time part `HH:MM[:SS[.ffffff]]` of `datetime.fromisoformat` (strict
two-digit fields), returning the minute of day.  Seconds and fractions are
validated but not retained (see `DT`). -/
def timeFromChars : List Char → Option Nat
  | [a, b, ':', c, d] => do
    let h ← twoDigit a b
    let m ← twoDigit c d
    if h ≤ 23 ∧ m ≤ 59 then pure (h * 60 + m) else none
  | [a, b, ':', c, d, ':', e, f] => do
    let h ← twoDigit a b
    let m ← twoDigit c d
    let s ← twoDigit e f
    if h ≤ 23 ∧ m ≤ 59 ∧ s ≤ 59 then pure (h * 60 + m) else none
  | a :: b :: ':' :: c :: d :: ':' :: e :: f :: '.' :: fs => do
    let h ← twoDigit a b
    let m ← twoDigit c d
    let s ← twoDigit e f
    if h ≤ 23 ∧ m ≤ 59 ∧ s ≤ 59 ∧ fracDigits fs = true then pure (h * 60 + m) else none
  | _ => none

/-- `datetime.fromisoformat` on `YYYY-MM-DD[{T, }HH:MM[:SS[.ffffff]][±HH:MM]]`:
returns the datetime together with its UTC offset in minutes when one was
given (an aware datetime), `none` for a naive one. -/
def parseIsoAwareL : List Char → Option (DT × Option Int)
  | [a, b, c, d, '-', e, f, '-', g, h] => do
    let dd ← dateFromIsoL [a, b, c, d, '-', e, f, '-', g, h]
    pure (⟨dd, 0⟩, none)
  | a :: b :: c :: d :: '-' :: e :: f :: '-' :: g :: h :: sep :: rest =>
    if sep = 'T' ∨ sep = ' ' then do
      let dd ← dateFromIsoL [a, b, c, d, '-', e, f, '-', g, h]
      let (tpart, opart) := splitAtSign rest
      let mins ← timeFromChars tpart
      match opart with
      | none => pure (⟨dd, mins⟩, none)
      | some (sg, oc) => do
        let off ← offsetFromChars sg oc
        pure (⟨dd, mins⟩, some off)
    else none
  | _ => none

def parseIsoAware (s : String) : Option (DT × Option Int) := parseIsoAwareL s.data

/-- `str.replace` for a single-character pattern (both call sites in the
source replace `"Z"`). -/
def replaceCharList (c : Char) (rep : List Char) : List Char → List Char
  | [] => []
  | x :: xs => if x = c then rep ++ replaceCharList c rep xs else x :: replaceCharList c rep xs

/-- `s.replace("Z", "+00:00")`, as in `timezone_utils.utc_to_local` and
`cal_api.get_available_slots`. -/
def pyReplaceZ (s : String) : String := ⟨replaceCharList 'Z' ['+', '0', '0', ':', '0', '0'] s.data⟩

/-! ## `zoneinfo.ZoneInfo` and Python exceptions -/

/-- A timezone object.  `offLocal` is `tz.utcoffset(naive_local_dt)` in
minutes (keyed by local wall-clock time, fold 0), `offUtc` the offset the zone
applies when converting *from* UTC (`tz.fromutc`, keyed by the UTC instant),
and `name` is `tzname` (`%Z`).  A fixed-offset zone uses the same constant for
both; the two differ only around a DST transition. -/
structure Zone where
  offLocal : DT → Int
  offUtc : DT → Int
  name : DT → String

def utcZone : Zone := ⟨fun _ => 0, fun _ => 0, fun _ => "UTC"⟩

/-- A Python HTTP response attached to a raised exception
(`exc.response`): `text` is the raw body, `jsonBody` its parsed JSON when
`.json()` succeeds (`none` when `.json()` itself raises). -/
structure PyResp where
  text : String
  jsonBody : Option JValue

/-- A raised Python exception: its `str(exc)` message, and the optional
`response` attribute carried by HTTP errors. -/
structure PyExc where
  msg : String
  response : Option PyResp := none

/-- `OverflowError` from `timedelta(days=d)` with `|d| > 999999999`. -/
def overflowDelta (d : Int) : PyExc :=
  ⟨"days=" ++ toString d ++ "; must have magnitude <= 999999999", none⟩

/-- `OverflowError` from date/datetime arithmetic leaving years 1..9999. -/
def overflowRange : PyExc := ⟨"date value out of range", none⟩

/-- `ValueError` from `fromisoformat`. -/
def invalidIso (s : String) : PyExc := ⟨"Invalid isoformat string: '" ++ s ++ "'", none⟩

/-! ## `timezone_utils.py` -/

/-- The error text of the unknown-timezone replies (the `{timezone!r}`
interpolation renders with single quotes). -/
def unknownTZMsg (tz : String) : String :=
  "Unknown timezone: '" ++ tz ++ "'. Use an IANA name like America/Los_Angeles."

/-- The value of one `timezone_utils` operation: a result mapping or an
`{"error": ...}` mapping (all field values in this module are strings). -/
inductive TZReply where
  | ok (fields : List (String × String))
  | err (msg : String)
  deriving DecidableEq, Repr

/-- `date.toordinal()`: proleptic-Gregorian day number with 0001-01-01 = 1
(days-from-civil algorithm shifted to Python's epoch). -/
def Date.toOrdinal (d : Date) : Int :=
  let y : Int := if d.month ≤ 2 then d.year - 1 else d.year
  let era : Int := y / 400
  let yoe : Int := y - era * 400
  let mp : Int := if d.month ≤ 2 then (d.month : Int) + 9 else (d.month : Int) - 3
  let doy : Int := (153 * mp + 2) / 5 + (d.day : Int) - 1
  let doe : Int := yoe * 365 + yoe / 4 - yoe / 100 + doy
  era * 146097 + doe - 305

/-- `date.fromordinal` (civil-from-days, shifted to Python's epoch). -/
def ordinalToDate (ord : Int) : Date :=
  let z : Int := ord + 305
  let era : Int := z / 146097
  let doe : Int := z - era * 146097
  let yoe : Int := (doe - doe / 1460 + doe / 36524 - doe / 146096) / 365
  let y : Int := yoe + era * 400
  let doy : Int := doe - (365 * yoe + yoe / 4 - yoe / 100)
  let mp : Int := (5 * doy + 2) / 153
  let dday : Int := doy - (153 * mp + 2) / 5 + 1
  let mm : Int := mp + (if mp < 10 then 3 else -9)
  ⟨y + (if mm ≤ 2 then 1 else 0), mm.toNat, dday.toNat⟩

def weekdayNames : List String :=
  ["Monday", "Tuesday", "Wednesday", "Thursday", "Friday", "Saturday", "Sunday"]

/-- `strftime("%A")`: ordinal 1 (0001-01-01) is a Monday. -/
def weekdayName (ord : Int) : String := weekdayNames.getD ((ord - 1) % 7).toNat ""

def monthNames : List String :=
  ["January", "February", "March", "April", "May", "June", "July", "August",
   "September", "October", "November", "December"]

def monthName (m : Nat) : String := monthNames.getD (m - 1) ""

/-- `strftime("%A, %B %-d, %Y")` (day without padding). -/
def displayDate (t : Date) (ord : Int) : String :=
  weekdayName ord ++ ", " ++ monthName t.month ++ " " ++ toString t.day ++ ", " ++ pad4 t.year.toNat

/-- `timezone_utils.resolve_date`.  `zoneDB` models `zoneinfo.ZoneInfo`
(`none` = `ZoneInfoNotFoundError`) and `now` the current UTC wall clock read
by `datetime.now(tz)` (assumed, like any real clock reading, to lie in the
representable range).  `timedelta(days=offset_days)` raises `OverflowError`
above magnitude 999999999, and `today + timedelta` raises `OverflowError`
when the result leaves `date.min .. date.max` (ordinals 1..3652059); neither
is caught in the source. -/
def resolve_date (zoneDB : String → Option Zone) (now : DT) (offset_days : Int)
    (timezone : String) : Except PyExc TZReply :=
  match zoneDB timezone with
  | none => .ok (.err (unknownTZMsg timezone))
  | some tz =>
    if 999999999 < offset_days.natAbs then .error (overflowDelta offset_days)
    else
      let todayLocal := (now.addMinutes (tz.offUtc now)).date
      let targetOrd := todayLocal.toOrdinal + offset_days
      if targetOrd < 1 ∨ 3652059 < targetOrd then .error overflowRange
      else
        let t := ordinalToDate targetOrd
        .ok (.ok [("date", t.isoformat),
                  ("weekday", weekdayName targetOrd),
                  ("display", displayDate t targetOrd)])

/-- `timezone_utils.local_to_utc`.  `ZoneInfoNotFoundError` and `strptime`'s
`ValueError` are caught and returned as `{"error": ...}` replies; the
`astimezone` conversion to UTC can still raise an uncaught `OverflowError`
at the edge of the representable range. -/
def local_to_utc (zoneDB : String → Option Zone) (date time timezone : String) :
    Except PyExc TZReply :=
  match zoneDB timezone with
  | none => .ok (.err (unknownTZMsg timezone))
  | some tz =>
    match strptimeDT date time with
    | none =>
      .ok (.err ("time data '" ++ date ++ " " ++ time ++
        "' does not match format '%Y-%m-%d %H:%M'"))
    | some dtLocal =>
      let off := tz.offLocal dtLocal
      let dtUtc := dtLocal.addMinutes (-off)
      if dtUtc.InRange then
        .ok (.ok [("utc_iso", formatIsoZ dtUtc),
                  ("utc_date", dtUtc.date.isoformat),
                  ("utc_time", formatHM dtUtc.minute),
                  ("local_display", dtLocal.date.isoformat ++ " " ++ formatHM dtLocal.minute
                    ++ " " ++ tz.name dtLocal)])
      else .error overflowRange

/-- `timezone_utils.utc_to_local`.  `sysZone` is the process-local timezone
`astimezone` assumes for a naive input datetime.  `ZoneInfoNotFoundError` and
`fromisoformat`'s `ValueError` are caught; `astimezone` can raise an uncaught
`OverflowError` at the range edges. -/
def utc_to_local (zoneDB : String → Option Zone) (sysZone : Zone)
    (utc_iso timezone : String) : Except PyExc TZReply :=
  match zoneDB timezone with
  | none => .ok (.err (unknownTZMsg timezone))
  | some tz =>
    match parseIsoAware (pyReplaceZ utc_iso) with
    | none => .ok (.err ("Invalid isoformat string: '" ++ pyReplaceZ utc_iso ++ "'"))
    | some (dt, offOpt) =>
      let off0 := match offOpt with | some o => o | none => sysZone.offLocal dt
      let u := dt.addMinutes (-off0)
      if u.InRange then
        let dtLoc := u.addMinutes (tz.offUtc u)
        if dtLoc.InRange then
          .ok (.ok [("local_display", dtLoc.date.isoformat ++ " " ++ formatHM dtLoc.minute
                      ++ " " ++ tz.name dtLoc),
                    ("local_date", dtLoc.date.isoformat),
                    ("local_time", formatHM dtLoc.minute)])
        else .error overflowRange
      else .error overflowRange

/-! ## Formatting / parsing roundtrip lemmas -/

theorem digitVal_digitChar (n : Nat) : digitVal (digitChar n) = some (n % 10) := by
  unfold digitChar
  have h : n % 10 < 10 := Nat.mod_lt _ (by omega)
  generalize n % 10 = r at *
  interval_cases r <;> decide

theorem twoDigit_digitChar (a b : Nat) :
    twoDigit (digitChar a) (digitChar b) = some (10 * (a % 10) + b % 10) := by
  simp [twoDigit, digitVal_digitChar]

theorem fourDigit_digitChar (a b c d : Nat) :
    fourDigit (digitChar a) (digitChar b) (digitChar c) (digitChar d)
      = some (1000 * (a % 10) + 100 * (b % 10) + 10 * (c % 10) + d % 10) := by
  simp [fourDigit, digitVal_digitChar]

theorem digitVal_le (c : Char) (v : Nat) (h : digitVal c = some v) : v ≤ 9 := by
  unfold digitVal at h
  split at h
  · cases h
    omega
  · cases h

theorem twoDigit_lt (a b : Char) (v : Nat) (h : twoDigit a b = some v) : v < 100 := by
  unfold twoDigit at h
  cases ha : digitVal a with
  | none => rw [ha] at h; cases h
  | some x =>
    cases hb : digitVal b with
    | none => rw [ha, hb] at h; cases h
    | some y =>
      rw [ha, hb] at h
      cases h
      have := digitVal_le a x ha
      have := digitVal_le b y hb
      omega

theorem fourDigit_lt (a b c d : Char) (v : Nat) (h : fourDigit a b c d = some v) : v < 10000 := by
  unfold fourDigit at h
  cases ha : digitVal a with
  | none => rw [ha] at h; cases h
  | some x =>
    cases hb : digitVal b with
    | none => rw [ha, hb] at h; cases h
    | some y =>
      cases hc : digitVal c with
      | none => rw [ha, hb, hc] at h; cases h
      | some z =>
        cases hd : digitVal d with
        | none => rw [ha, hb, hc, hd] at h; cases h
        | some w =>
          rw [ha, hb, hc, hd] at h
          cases h
          have := digitVal_le a x ha
          have := digitVal_le b y hb
          have := digitVal_le c z hc
          have := digitVal_le d w hd
          omega

theorem dateFromIsoL_isoformat (d : Date) (h : d.Valid) (hy1 : 1 ≤ d.year)
    (hy9 : d.year ≤ 9999) : dateFromIsoL d.isoformatL = some d := by
  obtain ⟨y, m, dd⟩ := d
  obtain ⟨h1, h2, h3, h4⟩ := h
  dsimp only at h1 h2 h3 h4 hy1 hy9
  have hyb : y.toNat < 10000 := by omega
  have hmb : m < 100 := by omega
  have hdb : dd < 100 := by
    have := daysInMonth_bounds y m
    omega
  unfold Date.isoformatL pad4L pad2L
  dsimp only
  simp only [List.cons_append, List.nil_append]
  simp only [dateFromIsoL, fourDigit_digitChar, twoDigit_digitChar, Option.bind_eq_bind,
    Option.some_bind]
  have e1 : 1000 * (y.toNat / 1000 % 10) + 100 * (y.toNat / 100 % 10)
      + 10 * (y.toNat / 10 % 10) + y.toNat % 10 = y.toNat := by omega
  have e2 : 10 * (m / 10 % 10) + m % 10 = m := by omega
  have e3 : 10 * (dd / 10 % 10) + dd % 10 = dd := by omega
  rw [e1, e2, e3]
  rw [show ((y.toNat : Int)) = y from by omega]
  rw [if_pos ⟨by omega, h1, h2, h3, h4⟩]
  rfl

theorem timeFromChars_format (m : Nat) (hm : m < 1440) :
    timeFromChars (formatHML m ++ [':', '0', '0']) = some m := by
  have h00 : twoDigit '0' '0' = some 0 := by decide
  show timeFromChars [digitChar (m / 60 / 10), digitChar (m / 60), ':',
    digitChar (m % 60 / 10), digitChar (m % 60), ':', '0', '0'] = some m
  simp only [timeFromChars, twoDigit_digitChar, h00, Option.bind_eq_bind, Option.some_bind]
  rw [if_pos]
  · simp only [Option.pure_def, Option.some.injEq]
    omega
  · refine ⟨by omega, by omega, by omega⟩

/-! Lemmas about `replaceCharList` and `splitAtSign` on formatted output. -/

theorem replaceCharList_append (c : Char) (rep l1 l2 : List Char) :
    replaceCharList c rep (l1 ++ l2)
      = replaceCharList c rep l1 ++ replaceCharList c rep l2 := by
  induction l1 with
  | nil => rfl
  | cons x xs ih =>
    simp only [List.cons_append, replaceCharList]
    split <;> simp [ih]

theorem replaceCharList_of_not_mem (c : Char) (rep : List Char) (l : List Char)
    (h : c ∉ l) : replaceCharList c rep l = l := by
  induction l with
  | nil => rfl
  | cons x xs ih =>
    rw [List.mem_cons] at h
    push_neg at h
    simp only [replaceCharList]
    rw [if_neg (fun he => h.1 he.symm), ih h.2]

theorem digitChar_ne (n : Nat) (c : Char) (hc : ¬(48 ≤ c.toNat ∧ c.toNat ≤ 57)) :
    digitChar n ≠ c := by
  intro he
  have hd := digitVal_digitChar n
  rw [he] at hd
  unfold digitVal at hd
  rw [if_neg hc] at hd
  cases hd

theorem mem_isoformatL (d : Date) (c : Char) (h : c ∈ d.isoformatL) :
    (∃ k, c = digitChar k) ∨ c = '-' := by
  unfold Date.isoformatL pad4L pad2L at h
  simp only [List.cons_append, List.nil_append, List.mem_cons, List.not_mem_nil,
    or_false] at h
  rcases h with h | h | h | h | h | h | h | h | h | h <;>
    first
      | exact Or.inl ⟨_, h⟩
      | exact Or.inr h

theorem mem_formatHML (m : Nat) (c : Char) (h : c ∈ formatHML m) :
    (∃ k, c = digitChar k) ∨ c = ':' := by
  unfold formatHML pad2L at h
  simp only [List.cons_append, List.nil_append, List.mem_cons, List.not_mem_nil,
    or_false] at h
  rcases h with h | h | h | h | h <;>
    first
      | exact Or.inl ⟨_, h⟩
      | exact Or.inr h

theorem not_mem_isoformatL_Z (d : Date) : 'Z' ∉ d.isoformatL := by
  intro h
  rcases mem_isoformatL d 'Z' h with ⟨k, hk⟩ | hk
  · exact digitChar_ne k 'Z' (by decide) hk.symm
  · cases hk

theorem not_mem_head_Z (t : DT) : 'Z' ∉ t.date.isoformatL ++ 'T' :: formatHML t.minute := by
  intro h
  rw [List.mem_append, List.mem_cons] at h
  rcases h with h | h | h
  · exact not_mem_isoformatL_Z t.date h
  · exact absurd h (by decide)
  · rcases mem_formatHML t.minute 'Z' h with ⟨k, hk⟩ | hk
    · exact digitChar_ne k 'Z' (by decide) hk.symm
    · exact absurd hk (by decide)

theorem replace_formatIsoZL (t : DT) :
    replaceCharList 'Z' ['+', '0', '0', ':', '0', '0'] (formatIsoZL t)
      = (t.date.isoformatL ++ 'T' :: formatHML t.minute)
          ++ [':', '0', '0', '+', '0', '0', ':', '0', '0'] := by
  unfold formatIsoZL
  rw [replaceCharList_append, replaceCharList_of_not_mem _ _ _ (not_mem_head_Z t)]
  congr 1

theorem splitAtSign_no_sign (l1 l2 : List Char)
    (h : ∀ c ∈ l1, c ≠ '+' ∧ c ≠ '-') :
    splitAtSign (l1 ++ '+' :: l2) = (l1, some (1, l2)) := by
  induction l1 with
  | nil => simp [splitAtSign]
  | cons x xs ih =>
    have hx := h x (by simp)
    simp only [List.cons_append, splitAtSign]
    rw [if_neg hx.1, if_neg hx.2]
    simp only [List.append_eq]
    rw [ih (fun c hc => h c (by simp [hc]))]

theorem no_sign_in_timePart (m : Nat) :
    ∀ c ∈ formatHML m ++ [':', '0', '0'], c ≠ '+' ∧ c ≠ '-' := by
  intro c hc
  rw [List.mem_append] at hc
  rcases hc with hc | hc
  · rcases mem_formatHML m c hc with ⟨k, hk⟩ | hk
    · subst hk
      exact ⟨digitChar_ne k '+' (by decide), digitChar_ne k '-' (by decide)⟩
    · subst hk
      exact ⟨by decide, by decide⟩
  · simp only [List.mem_cons, List.not_mem_nil, or_false] at hc
    rcases hc with hk | hk | hk <;> subst hk <;> exact ⟨by decide, by decide⟩

/-- The principal string roundtrip: parsing the formatted-and-`Z`-replaced
UTC instant back, as `utc_to_local` does with `local_to_utc`'s `utc_iso`,
recovers the datetime together with a `+00:00` offset. -/
theorem parseIsoAware_format (t : DT) (hv : t.Valid) (hy1 : 1 ≤ t.date.year)
    (hy9 : t.date.year ≤ 9999) :
    parseIsoAware (pyReplaceZ (formatIsoZ t)) = some (t, some 0) := by
  obtain ⟨hdv, hmv⟩ := hv
  show parseIsoAwareL (replaceCharList 'Z' ['+', '0', '0', ':', '0', '0'] (formatIsoZL t))
    = some (t, some 0)
  rw [replace_formatIsoZL]
  have hd := dateFromIsoL_isoformat t.date hdv hy1 hy9
  obtain ⟨⟨y, m, dd⟩, mins⟩ := t
  dsimp only at *
  unfold Date.isoformatL pad4L pad2L at hd ⊢
  dsimp only at hd ⊢
  simp only [List.cons_append, List.nil_append] at hd ⊢
  simp only [parseIsoAwareL]
  split
  · rw [hd]
    simp only [Option.bind_eq_bind, Option.some_bind]
    rw [show formatHML mins ++ [':', '0', '0', '+', '0', '0', ':', '0', '0']
        = (formatHML mins ++ [':', '0', '0']) ++ '+' :: ['0', '0', ':', '0', '0'] from by
      simp]
    rw [splitAtSign_no_sign _ _ (no_sign_in_timePart mins)]
    dsimp only
    rw [timeFromChars_format mins hmv]
    simp only [Option.bind_eq_bind, Option.some_bind]
    rw [show offsetFromChars 1 ['0', '0', ':', '0', '0'] = some 0 from by decide]
    rfl
  · rename_i hcond
    exact absurd (by simp) hcond

theorem fldY_lt (l : List Char) (v : Nat) (h : fldY l = some v) : v < 10000 := by
  unfold fldY at h
  split at h
  · exact fourDigit_lt _ _ _ _ _ h
  · cases h

theorem strptimeDT_props (ds ts : String) (t : DT) (h : strptimeDT ds ts = some t) :
    t.Valid ∧ 1 ≤ t.date.year ∧ t.date.year ≤ 9999 := by
  unfold strptimeDT at h
  split at h
  · split at h
    · rename_i y m dd hh mm hy hm hdd hhh hmm
      split at h
      · rename_i hcond
        obtain ⟨c1, c2, c3, c4, c5, c6, c7⟩ := hcond
        cases h
        have hy4 : y < 10000 := fldY_lt _ _ hy
        refine ⟨⟨⟨c2, c3, c4, c5⟩, by dsimp only; omega⟩, by dsimp only; omega,
          by dsimp only; omega⟩
      · cases h
    · cases h
  · cases h

/-- A concrete zone database carrying only `"UTC"`, used to instantiate the
`zoneinfo.ZoneInfo` parameter at concrete inputs. -/
def testZoneDB : String → Option Zone := fun s => if s = "UTC" then some utcZone else none

/-- A concrete current instant, 2026-03-01 10:00 UTC. -/
def now0 : DT := ⟨⟨2026, 3, 1⟩, 600⟩

/-- C6: the three Time Resolver operations, as the code actually behaves.
Every `.error` outcome (an uncaught Python exception) is an `OverflowError` —
from the `timedelta` magnitude bound or from date/datetime arithmetic leaving
the representable range; an unknown timezone or a malformed date/time string
always produces an `{"error": ...}` reply rather than an exception. -/
theorem tz_total_modulo_overflow (zoneDB : String → Option Zone) (sysZone : Zone)
    (now : DT) (off : Int) (tzs ds ts ui : String) :
    (∀ e, resolve_date zoneDB now off tzs = .error e →
      e = overflowDelta off ∨ e = overflowRange) ∧
    (∀ e, local_to_utc zoneDB ds ts tzs = .error e → e = overflowRange) ∧
    (∀ e, utc_to_local zoneDB sysZone ui tzs = .error e → e = overflowRange) ∧
    (zoneDB tzs = none →
      resolve_date zoneDB now off tzs = .ok (.err (unknownTZMsg tzs)) ∧
      local_to_utc zoneDB ds ts tzs = .ok (.err (unknownTZMsg tzs)) ∧
      utc_to_local zoneDB sysZone ui tzs = .ok (.err (unknownTZMsg tzs))) ∧
    (strptimeDT ds ts = none → ∀ z, zoneDB tzs = some z →
      local_to_utc zoneDB ds ts tzs = .ok (.err ("time data '" ++ ds ++ " " ++ ts ++
        "' does not match format '%Y-%m-%d %H:%M'"))) ∧
    (parseIsoAware (pyReplaceZ ui) = none → ∀ z, zoneDB tzs = some z →
      utc_to_local zoneDB sysZone ui tzs
        = .ok (.err ("Invalid isoformat string: '" ++ pyReplaceZ ui ++ "'"))) := by
  refine ⟨?_, ?_, ?_, ?_, ?_, ?_⟩
  · intro e h
    unfold resolve_date at h
    split at h
    · cases h
    · split at h
      · injection h with he
        exact Or.inl he.symm
      · dsimp only at h
        split at h
        · injection h with he
          exact Or.inr he.symm
        · cases h
  · intro e h
    unfold local_to_utc at h
    split at h
    · cases h
    · split at h
      · cases h
      · dsimp only at h
        split at h
        · cases h
        · injection h with he
          exact he.symm
  · intro e h
    unfold utc_to_local at h
    split at h
    · cases h
    · split at h
      · cases h
      · dsimp only at h
        split at h
        · split at h
          · cases h
          · injection h with he
            exact he.symm
        · injection h with he
          exact he.symm
  · intro hnone
    refine ⟨?_, ?_, ?_⟩
    · unfold resolve_date
      rw [hnone]
    · unfold local_to_utc
      rw [hnone]
    · unfold utc_to_local
      rw [hnone]
  · intro hns z hz
    unfold local_to_utc
    rw [hz, hns]
  · intro hnp z hz
    unfold utc_to_local
    rw [hz, hnp]

/-- C6 counterexample: the claim says `resolve_date` accepts `offset_days` of
any magnitude and never raises; the code raises an uncaught `OverflowError`
(here from the `timedelta` construction) for a large offset with a valid
timezone. -/
theorem resolve_date_raises_uncaught :
    resolve_date testZoneDB now0 1000000001 "UTC" = .error (overflowDelta 1000000001) := rfl

/-- C6 witness: the amended theorem applied at concrete inputs — an overflowing
offset is classified as overflow, an unknown timezone and malformed inputs
yield `{"error": ...}` replies. -/
theorem tz_total_modulo_overflow_witness :
    (overflowDelta 1000000001 = overflowDelta 1000000001
      ∨ overflowDelta 1000000001 = overflowRange) ∧
    (resolve_date testZoneDB now0 5 "Mars/Olympus" = .ok (.err (unknownTZMsg "Mars/Olympus")) ∧
      local_to_utc testZoneDB "2026-03-04" "16:00" "Mars/Olympus"
        = .ok (.err (unknownTZMsg "Mars/Olympus")) ∧
      utc_to_local testZoneDB utcZone "2026-03-04T16:00:00Z" "Mars/Olympus"
        = .ok (.err (unknownTZMsg "Mars/Olympus"))) ∧
    local_to_utc testZoneDB "not-a-date" "16:00" "UTC"
      = .ok (.err ("time data '" ++ "not-a-date" ++ " " ++ "16:00" ++
          "' does not match format '%Y-%m-%d %H:%M'")) ∧
    utc_to_local testZoneDB utcZone "garbage" "UTC"
      = .ok (.err ("Invalid isoformat string: '" ++ pyReplaceZ "garbage" ++ "'")) := by
  refine ⟨?_, ?_, ?_, ?_⟩
  · exact (tz_total_modulo_overflow testZoneDB utcZone now0 1000000001 "UTC" "a" "b"
      "c").1 (overflowDelta 1000000001) rfl
  · exact (tz_total_modulo_overflow testZoneDB utcZone now0 5 "Mars/Olympus" "2026-03-04"
      "16:00" "2026-03-04T16:00:00Z").2.2.2.1 rfl
  · exact (tz_total_modulo_overflow testZoneDB utcZone now0 5 "UTC" "not-a-date"
      "16:00" "x").2.2.2.2.1 (by decide) utcZone rfl
  · exact (tz_total_modulo_overflow testZoneDB utcZone now0 5 "UTC" "a" "b"
      "garbage").2.2.2.2.2 (by decide) utcZone rfl

/-- C7: `local_to_utc` followed by `utc_to_local` in the same timezone is the
identity on the wall-clock date and time, for a zone without a DST transition
at that instant (the offset the zone assigns to the UTC instant equals the one
it assigned to the local wall clock), canonical `YYYY-MM-DD` / `HH:MM` inputs,
and instants inside the representable range. -/
theorem tz_roundtrip (zoneDB : String → Option Zone) (sysZone z : Zone)
    (ds ts tzs : String) (dtL : DT)
    (hz : zoneDB tzs = some z)
    (hp : strptimeDT ds ts = some dtL)
    (hcd : ds = dtL.date.isoformat)
    (hct : ts = formatHM dtL.minute)
    (hnodst : z.offUtc (dtL.addMinutes (-(z.offLocal dtL))) = z.offLocal dtL)
    (hur : (dtL.addMinutes (-(z.offLocal dtL))).InRange) :
    local_to_utc zoneDB ds ts tzs
      = .ok (.ok [("utc_iso", formatIsoZ (dtL.addMinutes (-(z.offLocal dtL)))),
                  ("utc_date", (dtL.addMinutes (-(z.offLocal dtL))).date.isoformat),
                  ("utc_time", formatHM (dtL.addMinutes (-(z.offLocal dtL))).minute),
                  ("local_display", ds ++ " " ++ ts ++ " " ++ z.name dtL)]) ∧
    utc_to_local zoneDB sysZone (formatIsoZ (dtL.addMinutes (-(z.offLocal dtL)))) tzs
      = .ok (.ok [("local_display", ds ++ " " ++ ts ++ " " ++ z.name dtL),
                  ("local_date", ds),
                  ("local_time", ts)]) := by
  obtain ⟨hval, hy1, hy9⟩ := strptimeDT_props ds ts dtL hp
  have huval : (dtL.addMinutes (-(z.offLocal dtL))).Valid :=
    dtL.addMinutes_valid hval _
  constructor
  · unfold local_to_utc
    rw [hz, hp]
    dsimp only
    rw [if_pos hur]
    rw [hcd, hct]
  · unfold utc_to_local
    rw [hz]
    rw [parseIsoAware_format _ huval hur.1 hur.2]
    dsimp only
    rw [show (-(0 : Int)) = 0 from by omega]
    rw [DT.addMinutes_zero _ huval]
    rw [if_pos hur]
    rw [hnodst]
    rw [show (dtL.addMinutes (-(z.offLocal dtL))).addMinutes (z.offLocal dtL)
        = dtL from by
      have := dtL.addMinutes_cancel hval (-(z.offLocal dtL))
      rw [show (- -(z.offLocal dtL)) = z.offLocal dtL from by omega] at this
      exact this]
    rw [if_pos ⟨hy1, hy9⟩]
    rw [hcd, hct]

/-- C7 witness: the roundtrip evaluated in the fixed-offset zone `"UTC"` on
2026-03-04 16:00. -/
theorem tz_roundtrip_witness :
    local_to_utc testZoneDB "2026-03-04" "16:00" "UTC"
      = .ok (.ok [("utc_iso", "2026-03-04T16:00:00Z"),
                  ("utc_date", "2026-03-04"),
                  ("utc_time", "16:00"),
                  ("local_display", "2026-03-04 16:00 UTC")]) ∧
    utc_to_local testZoneDB utcZone "2026-03-04T16:00:00Z" "UTC"
      = .ok (.ok [("local_display", "2026-03-04 16:00 UTC"),
                  ("local_date", "2026-03-04"),
                  ("local_time", "16:00")]) := by
  have h := tz_roundtrip testZoneDB utcZone utcZone "2026-03-04" "16:00" "UTC"
    ⟨⟨2026, 3, 4⟩, 960⟩ rfl (by decide) (by decide) (by decide) rfl (by decide)
  exact h

/-! ## `cal_api.get_available_slots`

The HTTP call (`requests.get` + `raise_for_status` + `.json()`) enters as a
`provider` function from the request actually sent to the parsed response (or
a raised exception for a failed request).  A raw slot object is represented by
its `"start"` string, the only field the code reads. -/

/-- Python truthiness of an optional string (`None` and `""` are falsy), as
used by `if time_zone:` and `time_zone or "UTC"`. -/
def optTruthy : Option String → Bool
  | some s => !s.isEmpty
  | none => false

/-- The query parameters `get_available_slots` sends to `GET /v2/slots`. -/
structure SlotsRequest where
  eventTypeId : Int
  start : String
  endParam : String
  timeZone : Option String
  deriving DecidableEq, Repr

/-- The parsed provider response: the `"status"` field and the `"data"`
mapping from date keys to slot lists (each slot reduced to its `"start"`). -/
structure RawResp where
  status : Option String
  data : List (String × List String)

/-- One compacted slot `{"t": <local HH:MM>, "u": <UTC ISO>}`. -/
structure SlotEntry where
  t : String
  u : String
  deriving DecidableEq, Repr

/-- The value returned by `get_available_slots`. -/
structure SlotsReply where
  status : Option String
  timezone : String
  note : String
  data : List (String × List SlotEntry)
  deriving DecidableEq, Repr

def slotNote : String :=
  "Each slot has 't' (local display time) and 'u' (UTC ISO for booking). " ++
  "Pass 'u' directly as the 'start' parameter to create_booking — " ++
  "do NOT call local_to_utc for slot times."

/-- Lines 65-71 of `cal_api.py`: parse both dates (`ValueError` from
`date.fromisoformat` propagates) and widen a zero-or-negative-width window to
one day, returning the parsed window `(start, effective end)` together with
the `end` string actually sent to the provider. -/
def slotsWindow (start_time end_time : String) : Except PyExc (Date × Date × String) :=
  match Date.fromIso start_time with
  | none => .error (invalidIso start_time)
  | some s =>
    match Date.fromIso end_time with
    | none => .error (invalidIso end_time)
    | some e =>
      if e.leb s then .ok (s, s.nextDay, s.nextDay.isoformat)
      else .ok (s, e, end_time)

/-- Lines 113-122: convert one provider slot.  `datetime.fromisoformat` on the
`Z`-replaced start raises uncaught on malformed input; `astimezone` converts
to true UTC (a naive timestamp is interpreted in the process-local zone
`sysZone`), and the display time is rendered in the requested zone when it
resolved, in UTC otherwise. -/
def convertSlot (sysZone : Zone) (tzObj : Option Zone) (startStr : String) :
    Except PyExc SlotEntry :=
  match parseIsoAware (pyReplaceZ startStr) with
  | none => .error (invalidIso (pyReplaceZ startStr))
  | some (dt, offOpt) =>
    let off0 := match offOpt with | some o => o | none => sysZone.offLocal dt
    let u := dt.addMinutes (-off0)
    if u.InRange then
      match tzObj with
      | some z =>
        let loc := u.addMinutes (z.offUtc u)
        if loc.InRange then .ok ⟨formatHM loc.minute, formatIsoZ u⟩
        else .error overflowRange
      | none => .ok ⟨formatHM u.minute, formatIsoZ u⟩
    else .error overflowRange

def convertSlots (sysZone : Zone) (tzObj : Option Zone) :
    List String → Except PyExc (List SlotEntry)
  | [] => .ok []
  | s :: rest =>
    match convertSlot sysZone tzObj s with
    | .error e => .error e
    | .ok ent =>
      match convertSlots sysZone tzObj rest with
      | .error e => .error e
      | .ok l => .ok (ent :: l)

/-- Lines 102-123: the per-date-key loop.  A key that does not parse as an ISO
date is skipped (`except ValueError: continue`), a parsed key outside
`[start, effective end)` is skipped, and the remaining keys keep their slot
lists, compacted. -/
def convertData (sysZone : Zone) (tzObj : Option Zone) (ws we : Date) :
    List (String × List String) → Except PyExc (List (String × List SlotEntry))
  | [] => .ok []
  | (k, slots) :: rest =>
    match Date.fromIso k with
    | none => convertData sysZone tzObj ws we rest
    | some kd =>
      if ws.leb kd && kd.ltb we then
        match convertSlots sysZone tzObj slots with
        | .error e => .error e
        | .ok entries =>
          match convertData sysZone tzObj ws we rest with
          | .error e => .error e
          | .ok rest2 => .ok ((k, entries) :: rest2)
      else convertData sysZone tzObj ws we rest

/-- `cal_api.get_available_slots`. -/
def get_available_slots (provider : SlotsRequest → Except PyExc RawResp)
    (sysZone : Zone) (zoneDB : String → Option Zone) (event_type_id : Int)
    (start_time end_time : String) (time_zone : Option String) :
    Except PyExc SlotsReply :=
  match slotsWindow start_time end_time with
  | .error e => .error e
  | .ok (ws, we, endParam) =>
    match provider ⟨event_type_id, start_time, endParam,
        if optTruthy time_zone then time_zone else none⟩ with
    | .error e => .error e
    | .ok raw =>
      let tzObj : Option Zone :=
        if optTruthy time_zone then zoneDB (time_zone.getD "") else none
      match convertData sysZone tzObj ws we raw.data with
      | .error e => .error e
      | .ok dat =>
        .ok ⟨raw.status,
             (if optTruthy time_zone then time_zone.getD "" else "UTC"),
             slotNote, dat⟩

/-- C3: with valid ISO dates, a window whose end is not after its start is
widened so that the end sent to the provider is `start + 1 day` (for
`start = end` the effective window is exactly the one day starting at
`start`); a window with `start < end` passes through unchanged. -/
theorem window_widening (st et : String) (s e : Date)
    (hs : Date.fromIso st = some s) (he : Date.fromIso et = some e) :
    (e.leb s = true → slotsWindow st et = .ok (s, s.nextDay, s.nextDay.isoformat)) ∧
    (e.leb s = false → slotsWindow st et = .ok (s, e, et)) ∧
    (s = e → slotsWindow st et = .ok (s, s.nextDay, s.nextDay.isoformat)) := by
  refine ⟨?_, ?_, ?_⟩
  · intro hle
    unfold slotsWindow
    rw [hs, he]
    dsimp only
    rw [if_pos hle]
  · intro hgt
    unfold slotsWindow
    rw [hs, he]
    dsimp only
    rw [hgt]
    simp
  · intro heq
    subst heq
    unfold slotsWindow
    rw [hs, he]
    dsimp only
    rw [if_pos (Date.leb_refl s)]

/-- C3 witness: `2026-03-05 .. 2026-03-05` widens to an end of `2026-03-06`;
`2026-03-05 .. 2026-03-07` passes through. -/
theorem window_widening_witness :
    slotsWindow "2026-03-05" "2026-03-05"
      = .ok (⟨2026, 3, 5⟩, ⟨2026, 3, 6⟩, "2026-03-06") ∧
    slotsWindow "2026-03-05" "2026-03-07"
      = .ok (⟨2026, 3, 5⟩, ⟨2026, 3, 7⟩, "2026-03-07") := by
  constructor
  · have h := (window_widening "2026-03-05" "2026-03-05" ⟨2026, 3, 5⟩ ⟨2026, 3, 5⟩
      (by decide) (by decide)).2.2 rfl
    exact h
  · have h := (window_widening "2026-03-05" "2026-03-07" ⟨2026, 3, 5⟩ ⟨2026, 3, 7⟩
      (by decide) (by decide)).2.1 (by decide)
    exact h

theorem convertData_keys (sysZone : Zone) (tzObj : Option Zone) (ws we : Date)
    (raw : List (String × List String)) (out : List (String × List SlotEntry))
    (h : convertData sysZone tzObj ws we raw = .ok out) :
    ∀ p ∈ out, ∃ kd, Date.fromIso p.1 = some kd
      ∧ ws.leb kd = true ∧ kd.ltb we = true := by
  induction raw generalizing out with
  | nil =>
    cases h
    intro p hp
    cases hp
  | cons kv rest ih =>
    obtain ⟨k, slots⟩ := kv
    unfold convertData at h
    split at h
    · exact ih out h
    · rename_i kd hkd
      split at h
      · rename_i hin
        split at h
        · cases h
        · split at h
          · cases h
          · rename_i entries _ rest2 hrest2
            cases h
            intro p hp
            rw [List.mem_cons] at hp
            rcases hp with hp | hp
            · subst hp
              rw [Bool.and_eq_true] at hin
              exact ⟨kd, hkd, hin.1, hin.2⟩
            · exact ih rest2 hrest2 p hp
      · exact ih out h

/-- C4: every date key of a successful `get_available_slots` reply parses as
an ISO date lying in the half-open requested window `[start, effective end)`
(the end after any widening); unparseable and out-of-window provider keys are
filtered out. -/
theorem slots_keys_in_window (provider : SlotsRequest → Except PyExc RawResp)
    (sysZone : Zone) (zoneDB : String → Option Zone) (event_type_id : Int)
    (st et : String) (tzo : Option String) (ws we : Date) (endP : String)
    (reply : SlotsReply)
    (hw : slotsWindow st et = .ok (ws, we, endP))
    (hr : get_available_slots provider sysZone zoneDB event_type_id st et tzo
      = .ok reply) :
    ∀ p ∈ reply.data, ∃ kd, Date.fromIso p.1 = some kd
      ∧ ws.leb kd = true ∧ kd.ltb we = true := by
  unfold get_available_slots at hr
  rw [hw] at hr
  dsimp only at hr
  split at hr
  · cases hr
  · split at hr
    · cases hr
    · cases hr
      exact convertData_keys _ _ _ _ _ _ (by assumption)

/-- A constant provider used to instantiate witnesses: it answers any request
with one in-window key, one boundary-bleed key just before the window, and one
malformed key. -/
def testProvider : SlotsRequest → Except PyExc RawResp := fun _ =>
  .ok ⟨some "success",
       [("2026-03-04", ["2026-03-05T01:00:00.000+09:00"]),
        ("2026-03-05", ["2026-03-05T23:00:00.000Z"]),
        ("not a date", ["2026-03-05T23:00:00.000Z"])]⟩

/-- C4 witness: the key filter applied to a concrete reply — the provider's
bleed key `2026-03-04` and junk key are dropped, the surviving key
`2026-03-05` parses into the requested window. -/
theorem slots_keys_in_window_witness :
    slotsWindow "2026-03-05" "2026-03-05"
      = .ok (⟨2026, 3, 5⟩, ⟨2026, 3, 6⟩, "2026-03-06") ∧
    get_available_slots testProvider utcZone testZoneDB 7 "2026-03-05" "2026-03-05"
        (some "UTC")
      = .ok ⟨some "success", "UTC", slotNote,
          [("2026-03-05", [⟨"23:00", "2026-03-05T23:00:00Z"⟩])]⟩ ∧
    (∃ kd, Date.fromIso "2026-03-05" = some kd
      ∧ Date.leb ⟨2026, 3, 5⟩ kd = true ∧ Date.ltb kd ⟨2026, 3, 6⟩ = true) := by
  refine ⟨rfl, rfl, ?_⟩
  exact slots_keys_in_window testProvider utcZone testZoneDB 7 "2026-03-05" "2026-03-05"
    (some "UTC") ⟨2026, 3, 5⟩ ⟨2026, 3, 6⟩ "2026-03-06"
    ⟨some "success", "UTC", slotNote, [("2026-03-05", [⟨"23:00", "2026-03-05T23:00:00Z"⟩])]⟩
    rfl rfl
    ("2026-03-05", [⟨"23:00", "2026-03-05T23:00:00Z"⟩]) (by decide)

theorem convertSlots_utc_shape (sysZone : Zone) (slots : List String)
    (out : List SlotEntry) (h : convertSlots sysZone none slots = .ok out) :
    ∀ ent ∈ out, ∃ u, ent = ⟨formatHM u.minute, formatIsoZ u⟩ := by
  induction slots generalizing out with
  | nil =>
    cases h
    intro ent hent
    cases hent
  | cons s rest ih =>
    unfold convertSlots at h
    split at h
    · cases h
    · rename_i ent hent
      split at h
      · cases h
      · rename_i l hl
        cases h
        intro e he
        rw [List.mem_cons] at he
        rcases he with he | he
        · subst he
          unfold convertSlot at hent
          split at hent
          · cases hent
          · dsimp only at hent
            split at hent
            · injection hent with he2
              exact ⟨_, he2.symm⟩
            · cases hent
        · exact ih l hl e he

theorem convertData_utc_shape (sysZone : Zone) (ws we : Date)
    (raw : List (String × List String)) (out : List (String × List SlotEntry))
    (h : convertData sysZone none ws we raw = .ok out) :
    ∀ p ∈ out, ∀ ent ∈ p.2, ∃ u, ent = ⟨formatHM u.minute, formatIsoZ u⟩ := by
  induction raw generalizing out with
  | nil =>
    cases h
    intro p hp
    cases hp
  | cons kv rest ih =>
    obtain ⟨k, slots⟩ := kv
    unfold convertData at h
    split at h
    · exact ih out h
    · split at h
      · split at h
        · cases h
        · split at h
          · cases h
          · cases h
            intro p hp
            rw [List.mem_cons] at hp
            rcases hp with hp | hp
            · subst hp
              exact convertSlots_utc_shape sysZone slots _ (by assumption)
            · exact ih _ (by assumption) p hp
      · exact ih out h

/-- C10: with a requested timezone string that is nonempty but unknown to the
zone database, `get_available_slots` does not fail: the zone lookup falls back
(`except ZoneInfoNotFoundError: pass`), every slot's display time `t` is the
UTC clock time of the very instant reported in `u`, and the reply's
`timezone` field still echoes the invalid requested string. -/
theorem slots_invalid_tz_fallback (provider : SlotsRequest → Except PyExc RawResp)
    (sysZone : Zone) (zoneDB : String → Option Zone) (event_type_id : Int)
    (st et tzs : String) (reply : SlotsReply)
    (hne : tzs.isEmpty = false)
    (hdb : zoneDB tzs = none)
    (hr : get_available_slots provider sysZone zoneDB event_type_id st et (some tzs)
      = .ok reply) :
    reply.timezone = tzs ∧
    ∀ p ∈ reply.data, ∀ ent ∈ p.2, ∃ u, ent = ⟨formatHM u.minute, formatIsoZ u⟩ := by
  unfold get_available_slots at hr
  have htru : optTruthy (some tzs) = true := by simp [optTruthy, hne]
  simp only [htru, Option.getD_some, eq_self_iff_true, if_true, hdb] at hr
  split at hr
  · cases hr
  · split at hr
    · cases hr
    · split at hr
      · cases hr
      · cases hr
        exact ⟨rfl, convertData_utc_shape _ _ _ _ _ (by assumption)⟩

/-- C10 witness: requesting the invalid zone `"Not/AZone"` (absent from the
database) succeeds; the reply's `timezone` field echoes `"Not/AZone"` while
the surviving slot's `t` is its UTC clock time `23:00`. -/
theorem slots_invalid_tz_fallback_witness :
    get_available_slots testProvider utcZone testZoneDB 7 "2026-03-05" "2026-03-05"
        (some "Not/AZone")
      = .ok ⟨some "success", "Not/AZone", slotNote,
          [("2026-03-05", [⟨"23:00", "2026-03-05T23:00:00Z"⟩])]⟩ ∧
    (⟨"23:00", "2026-03-05T23:00:00Z"⟩ : SlotEntry).t = "23:00" ∧
    (∃ u, (⟨"23:00", "2026-03-05T23:00:00Z"⟩ : SlotEntry)
      = ⟨formatHM u.minute, formatIsoZ u⟩) := by
  refine ⟨rfl, rfl, ?_⟩
  exact (slots_invalid_tz_fallback testProvider utcZone testZoneDB 7 "2026-03-05"
    "2026-03-05" "Not/AZone"
    ⟨some "success", "Not/AZone", slotNote,
      [("2026-03-05", [⟨"23:00", "2026-03-05T23:00:00Z"⟩])]⟩ rfl rfl rfl).2
    ("2026-03-05", [⟨"23:00", "2026-03-05T23:00:00Z"⟩]) (by decide)
    ⟨"23:00", "2026-03-05T23:00:00Z"⟩ (by decide)

/-! ## `chatbot.py`: the conversation orchestrator

I/O enters as parameters: the regex searches of `_update_profile_from_message`
(`emailSearch` / `nameSearch`, returning the matched email / the captured name
group), `json.loads` on a tool call's argument string (which raises
`json.JSONDecodeError` on malformed input — an exception like any other), the
tool implementations behind `_TOOL_DISPATCH`, the current UTC time, and the
LLM: one `chat` call consumes a `script` of assistant turns, one per
`chat.completions.create` round; an exhausted script models that provider
call itself failing, the one failure `chat` does not catch. -/

/-- The cached user profile (`self.user_profile`): `name`, `email`,
`timezone`, each present or absent. -/
structure Profile where
  name : Option String := none
  email : Option String := none
  timezone : Option String := none
  deriving DecidableEq, Repr

def Profile.empty : Profile := {}

/-- `__init__`: `{"timezone": "America/Los_Angeles"}` (default timezone). -/
def initProfile : Profile := { timezone := some "America/Los_Angeles" }

/-- One tool invocation produced by the model: identifier, tool name and the
raw JSON argument string. -/
structure ToolCall where
  id : String
  name : String
  arguments : String
  deriving DecidableEq, Repr

/-- One history entry. -/
inductive Msg where
  | system (content : String)
  | user (content : String)
  | assistant (content : Option String) (toolCalls : List ToolCall)
  | tool (toolCallId : String) (content : String)
  deriving DecidableEq, Repr

def Msg.role : Msg → String
  | .system _ => "system"
  | .user _ => "user"
  | .assistant _ _ => "assistant"
  | .tool _ _ => "tool"

/-- `self.history[0]["content"] = content`: replace the content, keep the rest. -/
def Msg.withContent : Msg → String → Msg
  | .system _, c => .system c
  | .user _, c => .user c
  | .assistant _ tcs, c => .assistant (some c) tcs
  | .tool i _, c => .tool i c

/-- The orchestrator's mutable state: profile and message history. -/
structure CalState where
  profile : Profile
  history : List Msg
  deriving DecidableEq, Repr

/-- The `_SYSTEM_PROMPT` template (`.format(now=..., profile_section=...)`). -/
def systemPromptTemplate (now sect : String) : String :=
  String.intercalate "\n"
    ["You are a helpful calendar assistant for cal.com.",
     "",
     "You can help the user with:",
     "1. **Booking a new meeting** – list event types, check available slots, then create the booking.",
     "2. **Viewing scheduled events** – list bookings filtered by the user's email.",
     "3. **Cancelling a booking** – find the booking by listing events, then cancel it.",
     "4. **Rescheduling a booking** – find the booking, check new slot availability, then reschedule.",
     "",
     "Guidelines:",
     "- **Input format**: Accept user input in ANY natural format — plain sentences, casual phrasing, mixed formats, etc. Never instruct the user to follow a rigid format (e.g. never say \"send me: the event type number, date in YYYY-MM-DD, time in HH:MM…\"). Interpret and convert whatever they provide.",
     "- **Dates & times**: The user may say things like \"3pm\", \"tomorrow afternoon\", \"March 5th at 2\", \"next Monday morning\", \"in 2 days at noon\", etc. Parse and convert these naturally.",
     "- **Timezone**: Default to America/Los_Angeles. Before proceeding with any booking, confirm with the user: \"I'll use America/Los_Angeles as your timezone — is that correct?\" If they confirm or don't object, use it. If they specify a different timezone, use that instead. Never ask for timezone again after it is confirmed or known.",
     "- Always gather all required information before calling an API function. If anything is missing, ask for ALL missing details in a single conversational message — never ask one field at a time.",
     "- When booking: you need event type, date, time, attendee name, and attendee email. Never use placeholders like \"User\" or \"user@example.com\".",
     "  - ALWAYS call list_event_types first when booking, then present the results as a friendly numbered list. Never describe event types abstractly — always show the actual available options from the API.",
     "  - Ask for any other missing details (date, time, name, email) together in the same message, conversationally.",
     "  - Self-booking (user books for themselves): use name/email from Known user info. Ask only for whatever is missing.",
     "  - Booking for someone else: ask for that person's name and email only.",
     "- If the requested time slot is available, book it immediately — no confirmation needed.",
     "- When listing, cancelling, or rescheduling the user's own bookings: call list_bookings with no attendee_email filter — the API key already authenticates as the calendar owner and returns all their bookings. Never pass the owner's email as a filter.",
     "- If the user's name, email, or timezone are listed under \"Known user info\" below, use them directly — never ask for them again.",
     "- Present results in a clear, readable format (use lists and tables when helpful).",
     "- Never show booking UIDs to the user. Use UIDs only internally for API calls (cancel, reschedule).",
     "- When cancelling: confirm which booking to cancel, then cancel immediately — do NOT ask for a cancellation reason; only include it if the user already volunteered one.",
     "- When rescheduling: confirm the new time with the user before executing.",
     "- When confirming a completed booking, refer to it by event type name only (e.g., \"Secret meeting booked for March 10 at 2 PM PST\") — do not repeat the verbose auto-generated Cal.com title like \"Secret meeting between Jay and Jay\".",
     "- If an API call fails, explain the issue and suggest alternatives.",
     "- If a requested time slot is not available, explain why in terms the user understands: tell them what hours the host is available in the user's local timezone, and suggest the nearest available slot. Never just say \"that slot is unavailable\" without context.",
     "- Slot times returned by get_available_slots are already in the attendee's local timezone. If no slot matches the user's requested time, it means the host's calendar does not cover that local time (e.g., the host may be in a different timezone and only works certain hours).",
     "- TIMEZONE RULE: Never calculate UTC offsets in your head. Always use the local_to_utc tool to convert user times before booking, and utc_to_local to convert API timestamps before displaying them to the user.",
     "- DATE RULE: Never calculate relative dates in your head. Whenever the user says \"today\", \"tomorrow\", \"the day after tomorrow\", \"next Monday\", \"in 3 days\", etc., call the resolve_date tool with the appropriate offset_days and the user's timezone to get the exact date.",
     "",
     "Today's date and time (UTC): " ++ now] ++ "\n" ++ sect

/-- The known-user-info lines of `_build_system_content` (a field is listed
when present and truthy). -/
def profileLines (p : Profile) : List String :=
  (match p.name with
   | some s => if s.isEmpty then [] else ["- Name: " ++ s]
   | none => []) ++
  (match p.email with
   | some s => if s.isEmpty then [] else ["- Email: " ++ s]
   | none => []) ++
  (match p.timezone with
   | some s => if s.isEmpty then [] else ["- Timezone: " ++ s]
   | none => [])

def profileSection (p : Profile) : String :=
  if (profileLines p).isEmpty then ""
  else "\nKnown user info (do NOT ask for these again):\n"
    ++ String.intercalate "\n" (profileLines p) ++ "\n"

/-- `_build_system_content`, with `now` the current UTC instant read from
`datetime.utcnow()` and rendered as `%Y-%m-%d %H:%M UTC`. -/
def buildSystemContent (now : DT) (p : Profile) : String :=
  systemPromptTemplate (now.date.isoformat ++ " " ++ formatHM now.minute ++ " UTC")
    (profileSection p)

/-- `_refresh_system_message`: mutate the content of position 0 in place, or
seed the history with the system message when it is empty. -/
def refreshSystemMessage (now : DT) (s : CalState) : CalState :=
  match s.history with
  | [] => { s with history := [.system (buildSystemContent now s.profile)] }
  | h :: t => { s with history := h.withContent (buildSystemContent now s.profile) :: t }

/-- `CalChatbot.__init__`: default profile, then `_refresh_system_message`. -/
def initState (now : DT) : CalState := refreshSystemMessage now ⟨initProfile, []⟩

/-- `CalChatbot.reset`: clear the profile and the history, then refresh. -/
def CalState.reset (now : DT) (s : CalState) : CalState :=
  refreshSystemMessage now { s with profile := Profile.empty, history := [] }

/-- `dict.setdefault`: fill only when the key is absent. -/
def osetdefault (cur : Option String) (v : String) : Option String :=
  match cur with
  | some x => some x
  | none => some v

/-- `_update_profile_from_message`, with the two regex searches
(`_EMAIL_RE.search(...)` / `_NAME_RE.search(...).group(1)`) as parameters. -/
def updateProfileFromMessage (emailSearch nameSearch : String → Option String)
    (p : Profile) (message : String) : Profile :=
  let p1 := match emailSearch message with
    | some e => { p with email := osetdefault p.email e }
    | none => p
  match nameSearch message with
  | some n => { p1 with name := osetdefault p1.name n }
  | none => p1

/-- `fn_args.get(k)` restricted to string values (the only values the profile
code stores; a non-string JSON value in one of these argument slots would be
stored by Python as-is, which the string-typed profile does not represent). -/
def jGetStr (args : List (String × JValue)) (k : String) : Option String :=
  match args.lookup k with
  | some (.str s) => some s
  | _ => none

/-- `_update_profile_from_tool_args` (each `if fn_args.get(...)` guard is a
Python truthiness test, so empty strings are skipped, and
`get("time_zone") or get("timezone")` takes the first truthy value). -/
def updateProfileFromToolArgs (fnName : String) (args : List (String × JValue))
    (p : Profile) : Profile :=
  if fnName = "create_booking" then
    let p1 := match jGetStr args "attendee_name" with
      | some s => if s.isEmpty then p else { p with name := osetdefault p.name s }
      | none => p
    let p2 := match jGetStr args "attendee_email" with
      | some s => if s.isEmpty then p1 else { p1 with email := osetdefault p1.email s }
      | none => p1
    match jGetStr args "attendee_timezone" with
    | some s => if s.isEmpty then p2 else { p2 with timezone := osetdefault p2.timezone s }
    | none => p2
  else if fnName = "get_available_slots" ∨ fnName = "local_to_utc" ∨ fnName = "utc_to_local" then
    let tz := match jGetStr args "time_zone" with
      | some s => if s.isEmpty then jGetStr args "timezone" else some s
      | none => jGetStr args "timezone"
    match tz with
    | some s => if s.isEmpty then p else { p with timezone := osetdefault p.timezone s }
    | none => p
  else p

/-- The keys of `_TOOL_DISPATCH`. -/
def toolNames : List String :=
  ["list_event_types", "get_available_slots", "create_booking", "list_bookings",
   "cancel_booking", "reschedule_booking", "local_to_utc", "utc_to_local", "resolve_date"]

/-- `_TOOL_DISPATCH.get(fn_name)`, with the nine implementations supplied as
a parameter (each models `fn(**fn_args)`: a JSON result or a raised
exception). -/
def dispatchGet (impls : String → List (String × JValue) → Except PyExc JValue)
    (name : String) : Option (List (String × JValue) → Except PyExc JValue) :=
  if name ∈ toolNames then some (impls name) else none

/-- Lines 474-479: `str(exc)`, overridden by `exc.response.json()` when the
exception carries a response whose body parses, else by `exc.response.text`. -/
def excErrorValue (exc : PyExc) : JValue :=
  match exc.response with
  | none => .str exc.msg
  | some r =>
    match r.jsonBody with
    | some b => b
    | none => .str r.text

/-- The external collaborators of one `CalChatbot` instance. -/
structure ChatDeps where
  emailSearch : String → Option String
  nameSearch : String → Option String
  jsonLoads : String → Except PyExc (List (String × JValue))
  impls : String → List (String × JValue) → Except PyExc JValue

/-- One assistant turn returned by the LLM provider. -/
structure AssistantTurn where
  content : Option String
  toolCalls : List ToolCall
  deriving DecidableEq, Repr

/-- The exception of a failed `chat.completions.create` call (the one kind of
failure `chat` propagates; in the model it surfaces when the script of
assistant turns is exhausted). -/
def providerDown : PyExc := ⟨"LLM provider request failed", none⟩

/-- Lines 461-488: process one tool invocation.  `json.loads` runs **outside**
the `try` block, so its failure propagates; dispatch and execution run inside
it, and any exception there is converted to an `{"error": ...}` result which
is appended to the history as the invocation's tool message. -/
def processToolCall (D : ChatDeps) (s : CalState) (tc : ToolCall) :
    Except PyExc CalState :=
  match D.jsonLoads tc.arguments with
  | .error e => .error e
  | .ok args =>
    let s2 : CalState := { s with profile := updateProfileFromToolArgs tc.name args s.profile }
    let result : JValue :=
      match dispatchGet D.impls tc.name with
      | none => .obj [("error", .str ("Unknown tool: " ++ tc.name))]
      | some fn =>
        match fn args with
        | .ok r => r
        | .error exc => .obj [("error", excErrorValue exc)]
    .ok { s2 with history := s2.history ++ [.tool tc.id result.dumps] }

/-- The `for tool_call in message.tool_calls` loop; on an uncaught exception
the state mutated so far survives (Python raises out of the method with
`self.history` already extended). -/
def processToolCalls (D : ChatDeps) : CalState → List ToolCall → Option PyExc × CalState
  | s, [] => (none, s)
  | s, tc :: rest =>
    match processToolCall D s tc with
    | .error e => (some e, s)
    | .ok s2 => processToolCalls D s2 rest

/-- The `while True` loop of `chat`: append the assistant turn; a turn without
tool calls ends the loop with its text (`message.content or ""`); otherwise
execute the tool calls in order and loop. -/
def chatLoop (D : ChatDeps) : List AssistantTurn → CalState → Except PyExc String × CalState
  | [], s => (.error providerDown, s)
  | m :: rest, s =>
    let s2 : CalState := { s with history := s.history ++ [.assistant m.content m.toolCalls] }
    if m.toolCalls.isEmpty then (.ok (m.content.getD ""), s2)
    else
      match processToolCalls D s2 m.toolCalls with
      | (some e, s3) => (.error e, s3)
      | (none, s3) => chatLoop D rest s3

/-- `CalChatbot.chat`: profile update from the free text, system-message
refresh, user message append, then the loop. -/
def chat (D : ChatDeps) (script : List AssistantTurn) (now : DT)
    (userMessage : String) (s : CalState) : Except PyExc String × CalState :=
  let s1 : CalState :=
    { s with profile := updateProfileFromMessage D.emailSearch D.nameSearch s.profile userMessage }
  let s2 := refreshSystemMessage now s1
  let s3 : CalState := { s2 with history := s2.history ++ [.user userMessage] }
  chatLoop D script s3

/-- One `chat` call's inputs (LLM script, clock reading, user text). -/
structure ChatCall where
  script : List AssistantTurn
  now : DT
  message : String

/-- A sequence of `chat` calls against one orchestrator instance. -/
def runChats (D : ChatDeps) (calls : List ChatCall) (s : CalState) : CalState :=
  calls.foldl (fun st c => (chat D c.script c.now c.message st).2) s

/-- The states an orchestrator can be in: freshly constructed, or reached from
a reachable state by one `chat` call (with any collaborators, script, clock
and user text) or by `reset`. -/
inductive Reachable : CalState → Prop
  | init (now : DT) : Reachable (initState now)
  | step (D : ChatDeps) (script : List AssistantTurn) (now : DT) (u : String)
      (s : CalState) : Reachable s → Reachable (chat D script now u s).2
  | reset (now : DT) (s : CalState) : Reachable s → Reachable (CalState.reset now s)

/-! ## Claims about the orchestrator -/

/-- A stub `json.loads`: fails on the malformed argument string (a lone opening brace) the way
`json.loads` does, succeeds with an empty argument mapping otherwise (the
behaviour of `json.loads` on these concrete inputs). -/
def loadsStub : String → Except PyExc (List (String × JValue)) :=
  fun s =>
    if s = "\x7b" then .error ⟨"Expecting property name enclosed in double quotes: line 1 column 2 (char 1)", none⟩
    else .ok []

/-- Concrete collaborators for witnesses: no profile extraction, `loadsStub`,
and tools that all return `null`. -/
def stubDeps : ChatDeps := ⟨fun _ => none, fun _ => none, loadsStub, fun _ _ => .ok .null⟩

/-- C2 counterexample: the state after `reset()` does not equal that of a
freshly constructed orchestrator — the fresh profile carries the default
timezone, the reset profile is empty. -/
theorem reset_profile_differs :
    (CalState.reset now0 (initState now0)).profile ≠ (initState now0).profile := by
  decide

/-- C2 (amended): `reset()` clears the history and the profile entirely and
rebuilds the system message from empty known-info; but the result differs from
a freshly constructed orchestrator, whose profile holds the default timezone
`America/Los_Angeles`. -/
theorem reset_state (now : DT) (s : CalState) :
    (CalState.reset now s).profile = Profile.empty ∧
    (CalState.reset now s).history = [.system (buildSystemContent now Profile.empty)] ∧
    (initState now).profile = initProfile ∧
    initProfile ≠ Profile.empty := by
  refine ⟨rfl, rfl, rfl, by decide⟩

/-- C1 counterexample: a tool invocation whose argument string is malformed
JSON makes `chat` raise (`json.loads` runs outside the `try` block), instead
of producing an `{"error": ...}` tool result. -/
theorem chat_raises_on_malformed_args :
    (chat stubDeps [⟨none, [⟨"call_1", "list_event_types", "\x7b"⟩]⟩] now0 "hi"
      (initState now0)).1
      = .error ⟨"Expecting property name enclosed in double quotes: line 1 column 2 (char 1)", none⟩ := rfl

/-- C1 (amended): once a tool invocation's arguments have parsed, every
failure during dispatch or execution is caught and converted into exactly one
`{"error": ...}` tool message appended to the history — an unknown tool name
becomes an `Unknown tool` error, a raised exception becomes its message, and
an exception carrying a provider response uses the structured body when it
parses; argument-parsing failures, by contrast, propagate (see the
counterexample). -/
theorem tool_failures_caught (D : ChatDeps) (s : CalState) (tc : ToolCall)
    (args : List (String × JValue)) (h : D.jsonLoads tc.arguments = .ok args) :
    ∃ r : JValue,
      processToolCall D s tc = .ok
        { profile := updateProfileFromToolArgs tc.name args s.profile,
          history := s.history ++ [.tool tc.id r.dumps] } ∧
      (dispatchGet D.impls tc.name = none →
        r = .obj [("error", .str ("Unknown tool: " ++ tc.name))]) ∧
      (∀ fn v, dispatchGet D.impls tc.name = some fn → fn args = .ok v → r = v) ∧
      (∀ fn exc, dispatchGet D.impls tc.name = some fn → fn args = .error exc →
        r = .obj [("error", excErrorValue exc)]) ∧
      (∀ fn exc resp b, dispatchGet D.impls tc.name = some fn → fn args = .error exc →
        exc.response = some resp → resp.jsonBody = some b →
        r = .obj [("error", b)]) := by
  refine ⟨?_, ?_, ?_, ?_, ?_, ?_⟩
  · exact
      match dispatchGet D.impls tc.name with
      | none => .obj [("error", .str ("Unknown tool: " ++ tc.name))]
      | some fn =>
        match fn args with
        | .ok r => r
        | .error exc => .obj [("error", excErrorValue exc)]
  · unfold processToolCall
    rw [h]
  · intro hn
    rw [hn]
  · intro fn v hfn hv
    rw [hfn]
    dsimp only
    rw [hv]
  · intro fn exc hfn hexc
    rw [hfn]
    dsimp only
    rw [hexc]
  · intro fn exc resp b hfn hexc hresp hb
    rw [hfn]
    dsimp only
    rw [hexc]
    dsimp only
    unfold excErrorValue
    rw [hresp]
    dsimp only
    rw [hb]

/-- C1 witness: the caught-and-appended shape applied at a concrete
invocation whose arguments parse. -/
theorem tool_failures_caught_witness :
    loadsStub "[]" = .ok [] ∧
    ∃ r : JValue,
      processToolCall stubDeps (initState now0) ⟨"call_1", "frobnicate", "[]"⟩ = .ok
        { profile := updateProfileFromToolArgs "frobnicate" [] (initState now0).profile,
          history := (initState now0).history ++ [.tool "call_1" r.dumps] } := by
  refine ⟨rfl, ?_⟩
  obtain ⟨r, hr, -⟩ := tool_failures_caught stubDeps (initState now0)
    ⟨"call_1", "frobnicate", "[]"⟩ [] rfl
  exact ⟨r, hr⟩

/-- C8: a tool invocation naming a tool absent from `_TOOL_DISPATCH` appends
an `{"error": "Unknown tool: ..."}` tool message, does not raise, and the
loop continues to the model's next (plain-text) reply, which ends the turn. -/
theorem unknown_tool_continues (D : ChatDeps) (s : CalState) (tc : ToolCall)
    (args : List (String × JValue)) (txt : String)
    (hname : tc.name ∉ toolNames) (hargs : D.jsonLoads tc.arguments = .ok args) :
    chatLoop D [⟨none, [tc]⟩, ⟨some txt, []⟩] s =
      (.ok txt,
       ⟨updateProfileFromToolArgs tc.name args s.profile,
        s.history ++ [.assistant none [tc],
          .tool tc.id (JValue.dumps (.obj [("error", .str ("Unknown tool: " ++ tc.name))])),
          .assistant (some txt) []]⟩) := by
  simp [chatLoop, processToolCalls, processToolCall, hargs, dispatchGet, hname,
    List.append_assoc]

/-- C8 witness: the unknown tool `"frobnicate"` at a concrete state and
script. -/
theorem unknown_tool_continues_witness :
    ("frobnicate" ∉ toolNames) ∧
    chatLoop stubDeps [⟨none, [⟨"call_1", "frobnicate", "[]"⟩]⟩, ⟨some "done", []⟩]
        (initState now0) =
      (.ok "done",
       ⟨updateProfileFromToolArgs "frobnicate" [] (initState now0).profile,
        (initState now0).history ++ [.assistant none [⟨"call_1", "frobnicate", "[]"⟩],
          .tool "call_1" (JValue.dumps (.obj [("error", .str ("Unknown tool: " ++ "frobnicate"))])),
          .assistant (some "done") []]⟩) :=
  ⟨by decide,
   unknown_tool_continues stubDeps (initState now0) ⟨"call_1", "frobnicate", "[]"⟩ []
     "done" (by decide) rfl⟩

/-! ### C5: write-once profile fields -/

/-- Field-wise preservation order: every field set in `p` is set to the same
value in `q`. -/
def Profile.le (p q : Profile) : Prop :=
  (∀ v, p.name = some v → q.name = some v) ∧
  (∀ v, p.email = some v → q.email = some v) ∧
  (∀ v, p.timezone = some v → q.timezone = some v)

theorem Profile.le_refl (p : Profile) : Profile.le p p :=
  ⟨fun _ h => h, fun _ h => h, fun _ h => h⟩

theorem Profile.le_trans {p q r : Profile} (h1 : Profile.le p q) (h2 : Profile.le q r) :
    Profile.le p r :=
  ⟨fun v h => h2.1 v (h1.1 v h), fun v h => h2.2.1 v (h1.2.1 v h),
   fun v h => h2.2.2 v (h1.2.2 v h)⟩

theorem osetdefault_keeps (cur : Option String) (v w : String) (h : cur = some w) :
    osetdefault cur v = some w := by
  subst h
  rfl

theorem le_set_name (p : Profile) (s : String) :
    Profile.le p { p with name := osetdefault p.name s } := by
  refine ⟨?_, fun v h => h, fun v h => h⟩
  intro v hv
  exact osetdefault_keeps _ _ _ hv

theorem le_set_email (p : Profile) (s : String) :
    Profile.le p { p with email := osetdefault p.email s } := by
  refine ⟨fun v h => h, ?_, fun v h => h⟩
  intro v hv
  exact osetdefault_keeps _ _ _ hv

theorem le_set_tz (p : Profile) (s : String) :
    Profile.le p { p with timezone := osetdefault p.timezone s } := by
  refine ⟨fun v h => h, fun v h => h, ?_⟩
  intro v hv
  exact osetdefault_keeps _ _ _ hv

theorem step_le_name (p : Profile) (o : Option String) :
    Profile.le p (match o with
      | some s => if s.isEmpty then p else { p with name := osetdefault p.name s }
      | none => p) := by
  cases o with
  | none => exact Profile.le_refl p
  | some s =>
    show Profile.le p (if s.isEmpty then p else { p with name := osetdefault p.name s })
    split
    · exact Profile.le_refl p
    · exact le_set_name p s

theorem step_le_email (p : Profile) (o : Option String) :
    Profile.le p (match o with
      | some s => if s.isEmpty then p else { p with email := osetdefault p.email s }
      | none => p) := by
  cases o with
  | none => exact Profile.le_refl p
  | some s =>
    show Profile.le p (if s.isEmpty then p else { p with email := osetdefault p.email s })
    split
    · exact Profile.le_refl p
    · exact le_set_email p s

theorem step_le_tz (p : Profile) (o : Option String) :
    Profile.le p (match o with
      | some s => if s.isEmpty then p else { p with timezone := osetdefault p.timezone s }
      | none => p) := by
  cases o with
  | none => exact Profile.le_refl p
  | some s =>
    show Profile.le p (if s.isEmpty then p else { p with timezone := osetdefault p.timezone s })
    split
    · exact Profile.le_refl p
    · exact le_set_tz p s

theorem plain_le_name (p : Profile) (o : Option String) :
    Profile.le p (match o with
      | some s => { p with name := osetdefault p.name s }
      | none => p) := by
  cases o with
  | none => exact Profile.le_refl p
  | some s => exact le_set_name p s

theorem plain_le_email (p : Profile) (o : Option String) :
    Profile.le p (match o with
      | some s => { p with email := osetdefault p.email s }
      | none => p) := by
  cases o with
  | none => exact Profile.le_refl p
  | some s => exact le_set_email p s

theorem updateProfileFromMessage_le (es ns : String → Option String) (p : Profile)
    (m : String) : Profile.le p (updateProfileFromMessage es ns p m) := by
  unfold updateProfileFromMessage
  exact Profile.le_trans (plain_le_email p (es m)) (plain_le_name _ (ns m))

theorem updateProfileFromToolArgs_le (fn : String) (args : List (String × JValue))
    (p : Profile) : Profile.le p (updateProfileFromToolArgs fn args p) := by
  unfold updateProfileFromToolArgs
  split
  · exact Profile.le_trans (step_le_name p _)
      (Profile.le_trans (step_le_email _ _) (step_le_tz _ _))
  · split
    · exact step_le_tz p _
    · exact Profile.le_refl p

theorem processToolCall_le (D : ChatDeps) (s s' : CalState) (tc : ToolCall)
    (h : processToolCall D s tc = .ok s') : Profile.le s.profile s'.profile := by
  unfold processToolCall at h
  split at h
  · cases h
  · cases h
    exact updateProfileFromToolArgs_le _ _ _

theorem processToolCalls_le (D : ChatDeps) (tcs : List ToolCall) :
    ∀ s : CalState, Profile.le s.profile (processToolCalls D s tcs).2.profile := by
  induction tcs with
  | nil => exact fun s => Profile.le_refl _
  | cons tc rest ih =>
    intro s
    unfold processToolCalls
    cases hp : processToolCall D s tc with
    | error e => exact Profile.le_refl _
    | ok s2 => exact Profile.le_trans (processToolCall_le D s s2 tc hp) (ih s2)

theorem chatLoop_le (D : ChatDeps) (script : List AssistantTurn) :
    ∀ s : CalState, Profile.le s.profile (chatLoop D script s).2.profile := by
  induction script with
  | nil => exact fun s => Profile.le_refl _
  | cons m rest ih =>
    intro s
    unfold chatLoop
    dsimp only
    split
    · exact Profile.le_refl _
    · cases hp : processToolCalls D { s with history := s.history ++ [.assistant m.content m.toolCalls] } m.toolCalls with
      | mk oe s3 =>
        have h1 : Profile.le s.profile s3.profile := by
          have := processToolCalls_le D m.toolCalls
            { s with history := s.history ++ [.assistant m.content m.toolCalls] }
          rw [hp] at this
          exact this
        cases oe with
        | none => exact Profile.le_trans h1 (ih s3)
        | some e => exact h1

theorem refresh_profile (now : DT) (s : CalState) :
    (refreshSystemMessage now s).profile = s.profile := by
  unfold refreshSystemMessage
  split <;> rfl

theorem chat_le (D : ChatDeps) (script : List AssistantTurn) (now : DT) (u : String)
    (s : CalState) : Profile.le s.profile (chat D script now u s).2.profile := by
  have h1 := updateProfileFromMessage_le D.emailSearch D.nameSearch s.profile u
  unfold chat
  dsimp only
  refine Profile.le_trans ?_ (chatLoop_le D script _)
  rw [refresh_profile]
  exact h1

/-- C5: profile fields are write-once across any sequence of `chat` calls —
a field holding a value is never overwritten by later free-text extraction or
tool-argument merging; it can only be filled while absent. -/
theorem profile_write_once (D : ChatDeps) (calls : List ChatCall) :
    ∀ s : CalState, Profile.le s.profile (runChats D calls s).profile := by
  induction calls with
  | nil => exact fun s => Profile.le_refl _
  | cons c rest ih =>
    intro s
    exact Profile.le_trans (chat_le D c.script c.now c.message s) (ih _)

/-- An email extractor behaving like `_EMAIL_RE.search` on the two messages of
the write-once witness. -/
def emailStub : String → Option String := fun m =>
  if m = "alice@example.com" then some "alice@example.com"
  else if m = "bob@example.com" then some "bob@example.com" else none

def demoDeps : ChatDeps := ⟨emailStub, fun _ => none, fun _ => .ok [], fun _ _ => .ok .null⟩

/-- The state after telling the bot a first email address. -/
def demoState1 : CalState :=
  (chat demoDeps [⟨some "ok", []⟩] now0 "alice@example.com" (initState now0)).2

/-- C5 witness: feeding a second, different email in a later message keeps the
first. -/
theorem profile_write_once_witness :
    demoState1.profile.email = some "alice@example.com" ∧
    (runChats demoDeps [⟨[⟨some "ok", []⟩], now0, "bob@example.com"⟩] demoState1).profile.email
      = some "alice@example.com" :=
  ⟨rfl, (profile_write_once demoDeps [⟨[⟨some "ok", []⟩], now0, "bob@example.com"⟩]
    demoState1).2.1 "alice@example.com" rfl⟩

/-! ### C9: the history invariant -/

theorem processToolCall_extends (D : ChatDeps) (s s' : CalState) (tc : ToolCall)
    (h : processToolCall D s tc = .ok s') : ∃ ext, s'.history = s.history ++ ext := by
  unfold processToolCall at h
  split at h
  · cases h
  · cases h
    exact ⟨_, rfl⟩

theorem processToolCalls_extends (D : ChatDeps) (tcs : List ToolCall) :
    ∀ s : CalState, ∃ ext, (processToolCalls D s tcs).2.history = s.history ++ ext := by
  induction tcs with
  | nil => exact fun s => ⟨[], by simp [processToolCalls]⟩
  | cons tc rest ih =>
    intro s
    unfold processToolCalls
    cases hp : processToolCall D s tc with
    | error e => exact ⟨[], by simp⟩
    | ok s2 =>
      obtain ⟨e1, he1⟩ := processToolCall_extends D s s2 tc hp
      obtain ⟨e2, he2⟩ := ih s2
      exact ⟨e1 ++ e2, by dsimp only; rw [he2, he1, List.append_assoc]⟩

theorem chatLoop_extends (D : ChatDeps) (script : List AssistantTurn) :
    ∀ s : CalState, ∃ ext, (chatLoop D script s).2.history = s.history ++ ext := by
  induction script with
  | nil => exact fun s => ⟨[], by simp [chatLoop]⟩
  | cons m rest ih =>
    intro s
    unfold chatLoop
    dsimp only
    split
    · exact ⟨[.assistant m.content m.toolCalls], rfl⟩
    · cases hp : processToolCalls D
          { s with history := s.history ++ [.assistant m.content m.toolCalls] } m.toolCalls with
      | mk oe s3 =>
        have h1 : ∃ ext, s3.history = s.history ++ ([.assistant m.content m.toolCalls] ++ ext) := by
          obtain ⟨ext, hext⟩ := processToolCalls_extends D m.toolCalls
            { s with history := s.history ++ [.assistant m.content m.toolCalls] }
          rw [hp] at hext
          exact ⟨ext, by rw [hext]; simp⟩
        obtain ⟨e1, he1⟩ := h1
        cases oe with
        | some e => exact ⟨_, he1⟩
        | none =>
          obtain ⟨e2, he2⟩ := ih s3
          exact ⟨[.assistant m.content m.toolCalls] ++ e1 ++ e2, by
            rw [he2, he1]
            simp [List.append_assoc]⟩

theorem chat_head (D : ChatDeps) (script : List AssistantTurn) (now : DT) (u : String)
    (s : CalState) (c : String) (t : List Msg) (hh : s.history = .system c :: t) :
    ∃ c2 ext, (chat D script now u s).2.history = .system c2 :: (t ++ ext) := by
  unfold chat refreshSystemMessage
  dsimp only
  rw [hh]
  dsimp only [Msg.withContent]
  obtain ⟨ext, hext⟩ := chatLoop_extends D script
    ⟨updateProfileFromMessage D.emailSearch D.nameSearch s.profile u,
     (Msg.system (buildSystemContent now
        (updateProfileFromMessage D.emailSearch D.nameSearch s.profile u)) :: t) ++ [.user u]⟩
  refine ⟨buildSystemContent now
    (updateProfileFromMessage D.emailSearch D.nameSearch s.profile u), [.user u] ++ ext, ?_⟩
  rw [hext]
  simp

/-- C9: in every reachable orchestrator state the history is non-empty with
the system message at position 0, and a `chat` call only regenerates that head
system message in place and appends — every message after position 0 survives
unchanged, in order, at its index. -/
theorem history_invariant (s : CalState) (hs : Reachable s) :
    (∃ c t, s.history = .system c :: t) ∧
    ∀ D script now u, ∃ c2 ext,
      (chat D script now u s).2.history = .system c2 :: (s.history.tail ++ ext) := by
  have hmain : ∃ c t, s.history = .system c :: t := by
    induction hs with
    | init now => exact ⟨_, [], rfl⟩
    | step D script now u s hs ih =>
      obtain ⟨c, t, hh⟩ := ih
      obtain ⟨c2, ext, h2⟩ := chat_head D script now u s c t hh
      exact ⟨c2, t ++ ext, h2⟩
    | reset now s hs ih => exact ⟨_, [], rfl⟩
  refine ⟨hmain, ?_⟩
  intro D script now u
  obtain ⟨c, t, hh⟩ := hmain
  obtain ⟨c2, ext, h2⟩ := chat_head D script now u s c t hh
  refine ⟨c2, ext, ?_⟩
  rw [h2, hh]
  rfl

/-- C9 witness: the invariant at the freshly constructed state and across one
concrete `chat` call. -/
theorem history_invariant_witness :
    (∃ c t, (initState now0).history = .system c :: t) ∧
    (∃ c2 ext, (chat stubDeps [⟨some "hello", []⟩] now0 "hi" (initState now0)).2.history
      = .system c2 :: ((initState now0).history.tail ++ ext)) :=
  ⟨(history_invariant (initState now0) (Reachable.init now0)).1,
   (history_invariant (initState now0) (Reachable.init now0)).2 stubDeps
     [⟨some "hello", []⟩] now0 "hi"⟩

end CalAgent
